import Mathlib

/-!
Verification of the admission-controller core of the aws-secret-sidecar-injector
repository. The definitions below are a shallow embedding of the Go sources:
`admission-controller/pods.go` (current variant) and the legacy variant of the
same file, plus the secret-fetch program's `writeOutput`. Go strings are Lean
`String`s, Go maps are association lists in one fixed iteration order, Go
pointers that may be nil are `Option`, and a Go function that may panic or
block forever returns a `GoOutcome`.
-/

set_option maxRecDepth 10000

/-- Outcome of running a Go function: normal return, runtime panic, or an
unconditional block (`<-make(chan int)` with no sender). -/
inductive GoOutcome (α : Type) where
  | ret (a : α)
  | panics
  | blocksForever
deriving DecidableEq, Repr

/-- Naive substring search on character lists. -/
def containsSub (pat : List Char) : List Char → Bool
  | [] => pat.isEmpty
  | c :: rest => pat.isPrefixOf (c :: rest) || containsSub pat rest

/-- Embeds `strings.Contains s pat`. -/
def strContains (s pat : String) : Bool :=
  containsSub pat.data s.data

/-- ASCII whitespace, the fragment of `unicode.IsSpace` relevant here. -/
def isSpaceChar (c : Char) : Bool :=
  c = ' ' || c = '\t' || c = '\n' || c = '\r' || c = '\x0b' || c = '\x0c'

/-- Embeds `strings.TrimSpace`. -/
def trimSpace (s : String) : String :=
  String.mk (((s.data.dropWhile isSpaceChar).reverse.dropWhile isSpaceChar).reverse)

/-- Go `s[:len(s)-1]` for a string whose last byte is ASCII (here always `','`),
so dropping the last byte is dropping the last character. -/
def dropLastChar (s : String) : String :=
  String.mk s.data.dropLast

/-- Decimal digit character. -/
def digitChar (n : Nat) : Char :=
  if n = 0 then '0' else if n = 1 then '1' else if n = 2 then '2'
  else if n = 3 then '3' else if n = 4 then '4' else if n = 5 then '5'
  else if n = 6 then '6' else if n = 7 then '7' else if n = 8 then '8' else '9'

/-- Decimal digits, structurally recursive on a fuel bound so that concrete
values reduce in the kernel; `natChars` supplies enough fuel for any `n`. -/
def natCharsAux : Nat → Nat → List Char
  | 0, _ => []
  | fuel + 1, n =>
    if n < 10 then [digitChar n]
    else natCharsAux fuel (n / 10) ++ [digitChar (n % 10)]

/-- Decimal digits of a natural number, most significant first. -/
def natChars (n : Nat) : List Char :=
  natCharsAux (n + 1) n

/-- Embeds `strconv.Itoa` / `fmt.Sprintf "%d"` on a natural number. -/
def itoa (n : Nat) : String :=
  String.mk (natChars n)

/-- First-match lookup in an association list (a Go map access). -/
def lookupStr (m : List (String × String)) (k : String) : Option String :=
  match m.find? (fun kv => kv.1 == k) with
  | some kv => some kv.2
  | none => none

/-! ## Data model (k8s API types, restricted to the fields the code reads) -/

structure GroupVersionResource where
  group : String
  version : String
  resource : String
deriving DecidableEq, Repr

structure Container where
  name : String
deriving DecidableEq, Repr

structure Pod where
  labels : List (String × String)
  annotations : List (String × String)
  containers : List Container
  initContainers : List Container
deriving DecidableEq, Repr

structure PodAttachOptions where
  stdin : Bool
  container : String
deriving DecidableEq, Repr

/-- The raw bytes of `ar.Request.Object`, abstracted by what the universal
deserializer can decode them into. -/
inductive RawObject where
  | podObj (p : Pod)
  | attachObj (o : PodAttachOptions)
  | badObj
deriving DecidableEq, Repr

structure AdmissionRequest where
  resource : GroupVersionResource
  subResource : String
  name : String
  object : RawObject
deriving DecidableEq, Repr

structure AdmissionReview where
  request : AdmissionRequest
deriving DecidableEq, Repr

structure K8sStatus where
  status : String := ""
  message : String := ""
  code : Int := 0
deriving DecidableEq, Repr

structure AdmissionResponse where
  allowed : Bool
  patch : Option String := none
  patchType : Option String := none
  result : Option K8sStatus := none
deriving DecidableEq, Repr

/-- Decoding the raw object into a `corev1.Pod`. -/
def decodePod : RawObject → Option Pod
  | .podObj p => some p
  | _ => none

/-- Decoding the raw object into a `corev1.PodAttachOptions`. -/
def decodeAttach : RawObject → Option PodAttachOptions
  | .attachObj o => some o
  | _ => none

def podResource : GroupVersionResource :=
  { group := "", version := "v1", resource := "pods" }

/-- Modelled from the spec: `toV1AdmissionResponse` lives in the repository's
`main.go`, which is not among the provided sources. Spec section 7 states that
resource/sub-resource mismatches and decode errors are "surfaced as a
structured admission-response error (`allowed=false`, message)", so the error
is wrapped into a response with `allowed = false` and the error message. -/
def toV1AdmissionResponse (errMsg : String) : AdmissionResponse :=
  { allowed := false, result := some { message := errMsg } }

/-! ## Patch string templates from `pods.go`, split at the `Sprintf` verbs.
Literal braces are written `\x7b`/`\x7d` and apostrophes `\x27`. -/

def sidecarPatchA : String :=
  "[\n\t\t\x7b\"op\":\"add\", \"path\":\"/spec/containers/-\",\"value\":\x7b\"image\":\""

def sidecarPatchB : String :=
  "\",\"name\":\"webhook-added-sidecar\",\"volumeMounts\":[\x7b\"name\":\"vol\",\"mountPath\":\"/tmp\"\x7d],\"resources\":\x7b\x7d\x7d\x7d\n\t]"

/-- The constant `podsSidecarPatch` instantiated with the configured image. -/
def podsSidecarPatch (image : String) : String :=
  sidecarPatchA ++ image ++ sidecarPatchB

def shellA : String :=
  "\x7b\"op\":\"add\",\"path\":\"/spec/initContainers\",\"value\":["

def shellB : String :=
  "]\x7d,"

/-- The template `initContainersShell` instantiated with the joined entries. -/
def initContainersShell (inner : String) : String :=
  shellA ++ inner ++ shellB

def entrySegA : String :=
  "\x7b\"image\":\""

def entrySegB : String :=
  "\",\"name\":\"secrets-init-container-"

def entrySegC : String :=
  "\",\"volumeMounts\":[\x7b\"name\":\"secret-vol\",\"mountPath\":\"/tmp\"\x7d],\"env\":[\x7b\"name\": \"SECRET_ARN\",\"valueFrom\": \x7b\"fieldRef\": \x7b\"fieldPath\": \"metadata.annotations[\x27"

def entrySegD : String :=
  "\x27]\"\x7d\x7d\x7d],\"resources\":\x7b\x7d\x7d"

/-- The body of one `initContainerEntry`, without its trailing comma. -/
def initContainerEntryBody (image : String) (cnt : Nat) (ann : String) : String :=
  entrySegA ++ image ++ entrySegB ++ itoa cnt ++ entrySegC ++ ann ++ entrySegD

/-- The template `initContainerEntry` instantiated: image, counter and annotation key. -/
def initContainerEntry (image : String) (cnt : Nat) (ann : String) : String :=
  initContainerEntryBody image cnt ann ++ ","

def secretsMountPointPatch : String :=
  "\x7b\"op\":\"add\",\"path\":\"/spec/volumes/-\",\"value\":\x7b\"emptyDir\": \x7b\"medium\": \"Memory\"\x7d,\"name\": \"secret-vol\"\x7d\x7d"

/-- The `path` local variable of `applyPodPatch`. -/
def vmPath : String :=
  "\x7b\"op\": \"add\",\"path\": \"/spec/containers/"

def vmValueA : String :=
  "/volumeMounts/-\",\"value\": \x7b\"mountPath\": \"/tmp/"

def vmValueB : String :=
  "\",\"name\": \"secret-vol\"\x7d\x7d"

/-- The `value` local variable of `applyPodPatch` (randomized mount path). -/
def vmValue (mountLocation : String) : String :=
  vmValueA ++ mountLocation ++ vmValueB

/-- One volume-mount add operation for container index `i`. -/
def vmOp (i : Nat) (mountLocation : String) : String :=
  vmPath ++ itoa i ++ vmValue mountLocation

def envSegA : String :=
  "\x7b\"op\":\"add\",\"path\":\"/spec/containers/"

def envSegB : String :=
  "/env/-\",\"value\":\x7b\"name\":\"SEC_LOC\",\"value\":\"/tmp/"

def envSegC : String :=
  "\"\x7d\x7d"

/-- The template `envPatch` instantiated for container index `i`. -/
def envOp (i : Nat) (mountLocation : String) : String :=
  envSegA ++ itoa i ++ envSegB ++ mountLocation ++ envSegC

/-! ## The admission-controller functions (current variant, `pods.go`) -/

/-- The reserved toggle annotation key. -/
def toggleKey : String := "secrets.k8s.aws/sidecarInjectorWebhook"

/-- Whether an annotation key is selected by the scan loops: it contains
`secrets.k8s.aws` and is not the toggle key. -/
def isSecretAnnKey (k : String) : Bool :=
  strContains k "secrets.k8s.aws" && k != toggleKey

/-- Embeds `hasContainer`: linear scan for an exact container-name match. -/
def hasContainer (containers : List Container) (containerName : String) : Bool :=
  containers.any (fun c => c.name == containerName)

/-- The annotation keys matched by the loop in `processAnnotations` /
`shouldPatchPod`, in the modelled map-iteration order. -/
def secretAnnKeys (pod : Pod) : List String :=
  (pod.annotations.map Prod.fst).filter isSecretAnnKey

/-- The `patch += patchPart; initCount++` accumulation loop of
`processAnnotations`. -/
def initEntriesAux (image : String) : List String → Nat → String → String
  | [], _, acc => acc
  | k :: ks, i, acc => initEntriesAux image ks (i + 1) (acc ++ initContainerEntry image i k)

/-- Embeds `processAnnotations`. Panics (Go slice-bounds violation on
`patch[:len(patch)-1]`) when no annotation matched. -/
def processAnnotations (image : String) (pod : Pod) : GoOutcome String :=
  let patch := initEntriesAux image (secretAnnKeys pod) 0 ""
  if patch.length = 0 then .panics
  else
    let patch := dropLastChar patch
    let patch := initContainersShell patch
    let patch := "[" ++ patch
    .ret (patch ++ secretsMountPointPatch)

/-- The `volMounts` accumulation loop of `applyPodPatch`. -/
def buildVolMounts (n : Nat) (mountLocation : String) : String :=
  (List.range n).foldl
    (fun acc i =>
      if i = 0 then vmPath ++ itoa i ++ vmValue mountLocation
      else acc ++ "," ++ vmPath ++ itoa i ++ vmValue mountLocation)
    ""

/-- The `envPatches` accumulation loop of `applyPodPatch`. -/
def buildEnvPatches (n : Nat) (mountLocation : String) : String :=
  (List.range n).foldl
    (fun acc i =>
      if i = 0 then envOp i mountLocation
      else acc ++ "," ++ envOp i mountLocation)
    ""

/-- Embeds `applyPodPatch`. `mountLocation` is the value of `uuid.New()` for this
request and `image` the package-level `sidecarImage`. The `patch1` argument is
declared (and, as in the source, never used). Returns `.ret none` for the
`return nil` on a resource mismatch. -/
def applyPodPatch (ar : AdmissionReview) (shouldPatchPod : Pod → Bool)
    (patch1 : String) (mountLocation : String) (image : String) :
    GoOutcome (Option AdmissionResponse) :=
  if ar.request.resource ≠ podResource then .ret none
  else
    match decodePod ar.request.object with
    | none => .ret (some (toV1AdmissionResponse "decode error"))
    | some pod =>
      if shouldPatchPod pod then
        match processAnnotations image pod with
        | .panics => .panics
        | .blocksForever => .blocksForever
        | .ret patch0 =>
          let volMounts := buildVolMounts pod.containers.length mountLocation
          let envPatches := buildEnvPatches pod.containers.length mountLocation
          let patch := patch0 ++ "," ++ volMounts ++ "," ++ envPatches ++ "]"
          .ret (some { allowed := true, patch := some patch, patchType := some "JSONPatch" })
      else
        .ret (some { allowed := true })

/-- The `shouldPatchPod` closure of `mutatePods`. -/
def mutatePodsShouldPatch (pod : Pod) : Bool :=
  let secretFound := pod.annotations.any (fun kv => isSecretAnnKey kv.1)
  if !secretFound then false
  else !hasContainer pod.initContainers "secrets-init-container"

/-- Embeds `mutatePods`. -/
def mutatePods (ar : AdmissionReview) (mountLocation : String) (image : String) :
    GoOutcome (Option AdmissionResponse) :=
  applyPodPatch ar mutatePodsShouldPatch "" mountLocation image

/-- Embeds `mutatePodsSidecar`. -/
def mutatePodsSidecar (ar : AdmissionReview) (mountLocation : String) (image : String) :
    GoOutcome (Option AdmissionResponse) :=
  if image = "" then
    .ret (some { allowed := false,
                 result := some { status := "Failure",
                                  message := "No image specified by the sidecar-image parameter",
                                  code := 500 } })
  else
    applyPodPatch ar (fun pod => !hasContainer pod.containers "webhook-added-sidecar")
      (podsSidecarPatch image) mountLocation image

/-- The per-container body of the `admitPods` container loop. -/
def admitContainerStep (acc : Bool × String) (c : Container) : Bool × String :=
  if strContains c.name "webhook-disallow" then
    (false, acc.2 ++ "the pod contains unwanted container name; ")
  else acc

/-- Embeds `admitPods`. -/
def admitPods (ar : AdmissionReview) : GoOutcome (Option AdmissionResponse) :=
  if ar.request.resource ≠ podResource then
    .ret (some (toV1AdmissionResponse "expect resource to be pods"))
  else
    match decodePod ar.request.object with
    | none => .ret (some (toV1AdmissionResponse "decode error"))
    | some pod =>
      let afterLabel : Bool × String :=
        match lookupStr pod.labels "webhook-e2e-test" with
        | some v =>
          if v = "webhook-disallow" then (false, "the pod contains unwanted label; ")
          else (true, "")
        | none => (true, "")
      let blocks : Bool :=
        match lookupStr pod.labels "webhook-e2e-test" with
        | some v => v = "wait-forever"
        | none => false
      if blocks then .blocksForever
      else
        let res := pod.containers.foldl admitContainerStep afterLabel
        if res.1 then .ret (some { allowed := true })
        else .ret (some { allowed := false, result := some { message := trimSpace res.2 } })

/-- Embeds `denySpecificAttachment`. -/
def denySpecificAttachment (ar : AdmissionReview) : Option AdmissionResponse :=
  if ar.request.name ≠ "to-be-attached-pod" then some { allowed := true }
  else if ar.request.resource ≠ podResource then
    some (toV1AdmissionResponse "expect resource to be pods")
  else if ar.request.subResource ≠ "attach" then
    some (toV1AdmissionResponse "expect subresource to be attach")
  else
    match decodeAttach ar.request.object with
    | none => some (toV1AdmissionResponse "decode error")
    | some opts =>
      if !opts.stdin || opts.container ≠ "container1" then some { allowed := true }
      else
        some { allowed := false,
               result := some { message := "attaching to pod \x27to-be-attached-pod\x27 is not allowed" } }

/-! ## Legacy variant of `pods.go` (the second source file of this package) -/

namespace Legacy

def patchPreA : String :=
  "[\x7b\"op\":\"add\",\"path\":\"/spec/initContainers\",\"value\":[\x7b\"image\":\""

def patchPreB : String :=
  "\",\"name\":\"secrets-init-container\",\"volumeMounts\":[\x7b\"name\":\"secret-vol\",\"mountPath\":\"/tmp\"\x7d],\"env\":[\x7b\"name\": \"SECRET_ARN\",\"valueFrom\": \x7b\"fieldRef\": \x7b\"fieldPath\": \"metadata.annotations[\x27secrets.k8s.aws/secret-arn\x27]\"\x7d\x7d\x7d],\"resources\":\x7b\x7d\x7d]\x7d,\x7b\"op\":\"add\",\"path\":\"/spec/volumes/-\",\"value\":\x7b\"emptyDir\": \x7b\"medium\": \"Memory\"\x7d,\"name\": \"secret-vol\"\x7d\x7d"

/-- The legacy `podsInitContainerPatch` instantiated with the image. -/
def podsInitContainerPatch (image : String) : String :=
  patchPreA ++ image ++ patchPreB

def peA : String :=
  "\x7b\"op\":\"add\",\"path\":\"/spec/initContainers\",\"value\":[\x7b\"image\":\""

def peB : String :=
  "\",\"name\":\"secrets-init-container-"

def peC : String :=
  "\",\"volumeMounts\":[\x7b\"name\":\"secret-vol\",\"mountPath\":\"/tmp\"\x7d],\"env\":[\x7b\"name\": \"SECRET_ARN\",\"valueFrom\": \x7b\"fieldRef\": \x7b\"fieldPath\": \"metadata.annotations[\x27"

def peD : String :=
  "\x27]\"\x7d\x7d\x7d],\"resources\":\x7b\x7d\x7d]\x7d,"

/-- Embeds `fmt.Sprintf(podsInitContainerPatchEntry, sidecarImage, annotation)`: the
template has three verbs (`%v`, `%d`, `%v`) but only two arguments are passed,
so Go renders `%d` as `%!d(string=<annotation>)` and the final `%v` as
`%!v(MISSING)`. -/
def podsInitContainerPatchEntry (image ann : String) : String :=
  peA ++ image ++ peB ++ "%!d(string=" ++ ann ++ ")" ++ peC ++ "%!v(MISSING)" ++ peD

/-- Legacy `processAnnotations`: collects entries into a slice, joins them,
then performs the same trailing-comma trim (panicking when empty). -/
def processAnnotations (image : String) (pod : Pod) : GoOutcome String :=
  let patches := (secretAnnKeys pod).enum.map (fun p => initContainerEntry image p.1 p.2)
  let patch := String.join patches
  if patch.length = 0 then .panics
  else
    let patch := dropLastChar patch
    let patch := initContainersShell patch
    let patch := "[" ++ patch
    .ret (patch ++ secretsMountPointPatch)

/-- Legacy `volMounts` loop: the mount path is the fixed `/tmp/`
(`vmValue ""`), no randomized component. -/
def buildVolMounts (n : Nat) : String :=
  (List.range n).foldl
    (fun acc i =>
      if i = 0 then vmPath ++ itoa i ++ vmValue ""
      else acc ++ "," ++ vmPath ++ itoa i ++ vmValue "")
    ""

/-- Legacy `applyPodPatch`: no per-request mount location and no env-var
patches; `patch1` is again unused. -/
def applyPodPatch (ar : AdmissionReview) (shouldPatchPod : Pod → Bool)
    (patch1 : String) (image : String) : GoOutcome (Option AdmissionResponse) :=
  if ar.request.resource ≠ podResource then .ret none
  else
    match decodePod ar.request.object with
    | none => .ret (some (toV1AdmissionResponse "decode error"))
    | some pod =>
      if shouldPatchPod pod then
        match processAnnotations image pod with
        | .panics => .panics
        | .blocksForever => .blocksForever
        | .ret patch0 =>
          let volMounts := buildVolMounts pod.containers.length
          let patch := patch0 ++ "," ++ volMounts ++ "]"
          .ret (some { allowed := true, patch := some patch, patchType := some "JSONPatch" })
      else
        .ret (some { allowed := true })

/-- The `shouldPatchPod` closure of the legacy `mutatePods`: requires at least
one matched annotation, the literal key `secrets.k8s.aws/secret-arn`, and no
init container named exactly `secrets-init-container`. -/
def shouldPatchPod (image : String) (pod : Pod) : Bool :=
  let patches := (secretAnnKeys pod).map (fun k => podsInitContainerPatchEntry image k)
  if patches.length = 0 then false
  else
    match lookupStr pod.annotations "secrets.k8s.aws/secret-arn" with
    | none => false
    | some _ => !hasContainer pod.initContainers "secrets-init-container"

/-- Legacy `mutatePods`. -/
def mutatePods (ar : AdmissionReview) (image : String) : GoOutcome (Option AdmissionResponse) :=
  applyPodPatch ar (shouldPatchPod image) (podsInitContainerPatch image) image

end Legacy

/-! ## A JSON value model and a character-level JSON parser.
`jsonParse` is a strict RFC 8259 syntax checker and parser, used to state
that the produced patch bytes are valid JSON and to model `json.Unmarshal`
of the secret-fetch program. It scans one character at a time with an
explicit stack, so scanning distributes over string concatenation. -/

inductive Json where
  | jstr (s : String)
  | jnum (raw : String)
  | jbool (b : Bool)
  | jnull
  | jarr (elems : List Json)
  | jobj (fields : List (String × Json))
deriving Repr

/-- Stack frame: a partially parsed array or object (elements reversed);
an object frame also holds the key of the member being parsed. -/
inductive JFrame where
  | arrF (elems : List Json)
  | objF (fields : List (String × Json)) (key : String)
deriving Repr

inductive JMode where
  | val (first : Bool)
  | key (first : Bool)
  | colon (k : String)
  | inStr (buf : List Char) (asKey : Bool)
  | strEsc (buf : List Char) (asKey : Bool)
  | strHex (buf : List Char) (asKey : Bool) (need : Nat) (acc : Nat)
  | post (v : Json)
  | lit (rest : List Nat) (v : Json)
  | numNeg (raw : List Char)
  | numZero (raw : List Char)
  | numInt (raw : List Char)
  | numDot (raw : List Char)
  | numFrac (raw : List Char)
  | numE (raw : List Char)
  | numESign (raw : List Char)
  | numExp (raw : List Char)
  | err
deriving Repr

structure JState where
  mode : JMode
  stack : List JFrame
deriving Repr

/-- The scanner dispatches on code points (`Char.toNat`) rather than on `Char`
equality so that scanning a concrete character reduces quickly. -/
def wsN (n : Nat) : Bool :=
  n = 32 || n = 9 || n = 10 || n = 13

def digitN (n : Nat) : Bool :=
  48 ≤ n && n ≤ 57

def digit19N (n : Nat) : Bool :=
  49 ≤ n && n ≤ 57

def hexValN (n : Nat) : Option Nat :=
  if 48 ≤ n && n ≤ 57 then some (n - 48)
  else if 97 ≤ n && n ≤ 102 then some (n - 87)
  else if 65 ≤ n && n ≤ 70 then some (n - 55)
  else none

def escCharN (n : Nat) : Option Char :=
  if n = 34 then some '"'
  else if n = 92 then some '\\'
  else if n = 47 then some '/'
  else if n = 98 then some '\x08'
  else if n = 102 then some '\x0c'
  else if n = 110 then some '\n'
  else if n = 114 then some '\r'
  else if n = 116 then some '\t'
  else none

def numDelimN (n : Nat) : Bool :=
  wsN n || n = 44 || n = 93 || n = 125

/-- A completed value `v` meets a character with code point `n`. -/
def postStep (stack : List JFrame) (v : Json) (n : Nat) : JState :=
  if wsN n then ⟨.post v, stack⟩
  else if n = 44 then
    match stack with
    | .arrF es :: rest => ⟨.val false, .arrF (v :: es) :: rest⟩
    | .objF fs k :: rest => ⟨.key false, .objF ((k, v) :: fs) "" :: rest⟩
    | [] => ⟨.err, stack⟩
  else if n = 93 then
    match stack with
    | .arrF es :: rest => ⟨.post (.jarr (v :: es).reverse), rest⟩
    | _ => ⟨.err, stack⟩
  else if n = 125 then
    match stack with
    | .objF fs k :: rest => ⟨.post (.jobj ((k, v) :: fs).reverse), rest⟩
    | _ => ⟨.err, stack⟩
  else ⟨.err, stack⟩

/-- A value is expected and character `c` (code point `n`) arrives. `first` is
true only directly after `[`, where `]` may close an empty array. -/
def valStep (stack : List JFrame) (first : Bool) (c : Char) (n : Nat) : JState :=
  if wsN n then ⟨.val first, stack⟩
  else if n = 34 then ⟨.inStr [] false, stack⟩
  else if n = 123 then ⟨.key true, .objF [] "" :: stack⟩
  else if n = 91 then ⟨.val true, .arrF [] :: stack⟩
  else if n = 93 then
    if first then
      match stack with
      | .arrF es :: rest => ⟨.post (.jarr es.reverse), rest⟩
      | _ => ⟨.err, stack⟩
    else ⟨.err, stack⟩
  else if n = 45 then ⟨.numNeg ['-'], stack⟩
  else if n = 48 then ⟨.numZero ['0'], stack⟩
  else if digit19N n then ⟨.numInt [c], stack⟩
  else if n = 116 then ⟨.lit [114, 117, 101] (.jbool true), stack⟩
  else if n = 102 then ⟨.lit [97, 108, 115, 101] (.jbool false), stack⟩
  else if n = 110 then ⟨.lit [117, 108, 108] .jnull, stack⟩
  else ⟨.err, stack⟩

def scanStep : JState → Char → JState
  | ⟨mode, stack⟩, c =>
    let n := c.toNat
    match mode with
    | .err => ⟨.err, stack⟩
    | .val first => valStep stack first c n
    | .key first =>
      if wsN n then ⟨.key first, stack⟩
      else if n = 34 then ⟨.inStr [] true, stack⟩
      else if n = 125 && first then
        match stack with
        | .objF fs _ :: rest => ⟨.post (.jobj fs.reverse), rest⟩
        | _ => ⟨.err, stack⟩
      else ⟨.err, stack⟩
    | .colon k =>
      if wsN n then ⟨.colon k, stack⟩
      else if n = 58 then
        match stack with
        | .objF fs _ :: rest => ⟨.val false, .objF fs k :: rest⟩
        | _ => ⟨.err, stack⟩
      else ⟨.err, stack⟩
    | .inStr buf asKey =>
      if n = 34 then
        if asKey then ⟨.colon (String.mk buf), stack⟩
        else ⟨.post (.jstr (String.mk buf)), stack⟩
      else if n = 92 then ⟨.strEsc buf asKey, stack⟩
      else if n < 32 then ⟨.err, stack⟩
      else ⟨.inStr (buf ++ [c]) asKey, stack⟩
    | .strEsc buf asKey =>
      if n = 117 then ⟨.strHex buf asKey 4 0, stack⟩
      else
        match escCharN n with
        | some e => ⟨.inStr (buf ++ [e]) asKey, stack⟩
        | none => ⟨.err, stack⟩
    | .strHex buf asKey need acc =>
      match hexValN n with
      | some d =>
        if need = 1 then ⟨.inStr (buf ++ [Char.ofNat (acc * 16 + d)]) asKey, stack⟩
        else ⟨.strHex buf asKey (need - 1) (acc * 16 + d), stack⟩
      | none => ⟨.err, stack⟩
    | .post v => postStep stack v n
    | .lit rest v =>
      match rest with
      | [r] => if n = r then ⟨.post v, stack⟩ else ⟨.err, stack⟩
      | r :: rs => if n = r then ⟨.lit rs v, stack⟩ else ⟨.err, stack⟩
      | [] => ⟨.err, stack⟩
    | .numNeg raw =>
      if n = 48 then ⟨.numZero (raw ++ [c]), stack⟩
      else if digit19N n then ⟨.numInt (raw ++ [c]), stack⟩
      else ⟨.err, stack⟩
    | .numZero raw =>
      if n = 46 then ⟨.numDot (raw ++ [c]), stack⟩
      else if n = 101 || n = 69 then ⟨.numE (raw ++ [c]), stack⟩
      else if numDelimN n then postStep stack (.jnum (String.mk raw)) n
      else ⟨.err, stack⟩
    | .numInt raw =>
      if digitN n then ⟨.numInt (raw ++ [c]), stack⟩
      else if n = 46 then ⟨.numDot (raw ++ [c]), stack⟩
      else if n = 101 || n = 69 then ⟨.numE (raw ++ [c]), stack⟩
      else if numDelimN n then postStep stack (.jnum (String.mk raw)) n
      else ⟨.err, stack⟩
    | .numDot raw =>
      if digitN n then ⟨.numFrac (raw ++ [c]), stack⟩ else ⟨.err, stack⟩
    | .numFrac raw =>
      if digitN n then ⟨.numFrac (raw ++ [c]), stack⟩
      else if n = 101 || n = 69 then ⟨.numE (raw ++ [c]), stack⟩
      else if numDelimN n then postStep stack (.jnum (String.mk raw)) n
      else ⟨.err, stack⟩
    | .numE raw =>
      if n = 43 || n = 45 then ⟨.numESign (raw ++ [c]), stack⟩
      else if digitN n then ⟨.numExp (raw ++ [c]), stack⟩
      else ⟨.err, stack⟩
    | .numESign raw =>
      if digitN n then ⟨.numExp (raw ++ [c]), stack⟩ else ⟨.err, stack⟩
    | .numExp raw =>
      if digitN n then ⟨.numExp (raw ++ [c]), stack⟩
      else if numDelimN n then postStep stack (.jnum (String.mk raw)) n
      else ⟨.err, stack⟩

def scanChars (st : JState) (l : List Char) : JState :=
  l.foldl scanStep st

/-- Parse a whole string as one JSON value. -/
def jsonParse (s : String) : Option Json :=
  match scanChars ⟨.val false, []⟩ s.data with
  | ⟨.post v, []⟩ => some v
  | ⟨.numZero raw, []⟩ => some (.jnum (String.mk raw))
  | ⟨.numInt raw, []⟩ => some (.jnum (String.mk raw))
  | ⟨.numFrac raw, []⟩ => some (.jnum (String.mk raw))
  | ⟨.numExp raw, []⟩ => some (.jnum (String.mk raw))
  | _ => none

/-! ## The secret-fetch program's output writer (`writeOutput`) -/

/-- The string values of a parsed JSON object, provided every member value is
a string (otherwise Go's `json.Unmarshal` into `map[string]string` errors). -/
def jsonFieldsToStrings : List (String × Json) → Option (List (String × String))
  | [] => some []
  | (k, .jstr v) :: rest => (jsonFieldsToStrings rest).map (fun l => (k, v) :: l)
  | _ => none

/-- Store a key/value into an association list modelling a Go map: overwrite in
place if present, append otherwise. -/
def upsert (m : List (String × String)) (k v : String) : List (String × String) :=
  match m with
  | [] => [(k, v)]
  | (k0, v0) :: rest => if k0 = k then (k0, v) :: rest else (k0, v0) :: upsert rest k v

def toStringMap (l : List (String × String)) : List (String × String) :=
  l.foldl (fun m kv => upsert m kv.1 kv.2) []

/-- Embeds `json.Unmarshal(output, &uj)` for `uj : map[string]string`: succeeds only
on a JSON object all of whose member values are strings. -/
def unmarshalStringMap (s : String) : Option (List (String × String)) :=
  match jsonParse s with
  | some (.jobj fields) =>
    match jsonFieldsToStrings fields with
    | some pairs => some (toStringMap pairs)
    | none => none
  | _ => none

/-- One `export KEY=VALUE;` line. -/
def exportLine (kv : String × String) : String :=
  "export " ++ kv.1 ++ "=" ++ kv.2 ++ ";\n"

/-- Concatenation of a list of strings, in order. -/
def joinAll : List String → String
  | [] => ""
  | s :: rest => s ++ joinAll rest

/-- Embeds `writeOutput`: `file` is the current contents of `/tmp/secret` (the file is
opened with `O_APPEND`); the function returns its contents afterwards. On any
unmarshal error it returns early and the file is untouched. -/
def writeOutput (output : String) (file : String) : String :=
  match unmarshalStringMap output with
  | none => file
  | some uj => file ++ joinAll (uj.map exportLine)

/-! ## Scan infrastructure -/

def safeChar (c : Char) : Bool :=
  !(c.toNat = 34) && !(c.toNat = 92) && decide (32 ≤ c.toNat)

def jsonSafe (s : String) : Bool :=
  s.data.all safeChar

def scanStr (st : JState) (s : String) : JState :=
  scanChars st s.data

/-! ## ASTs of the individual patch operations -/

def vmOpAst (i : Nat) (mnt : String) : Json :=
  .jobj [("op", .jstr "add"),
         ("path", .jstr ("/spec/containers/" ++ itoa i ++ "/volumeMounts/-")),
         ("value", .jobj [("mountPath", .jstr ("/tmp/" ++ mnt)), ("name", .jstr "secret-vol")])]

def volOpAst : Json :=
  .jobj [("op", .jstr "add"), ("path", .jstr "/spec/volumes/-"),
         ("value", .jobj [("emptyDir", .jobj [("medium", .jstr "Memory")]), ("name", .jstr "secret-vol")])]

def envOpAst (i : Nat) (mnt : String) : Json :=
  .jobj [("op", .jstr "add"),
         ("path", .jstr ("/spec/containers/" ++ itoa i ++ "/env/-")),
         ("value", .jobj [("name", .jstr "SEC_LOC"), ("value", .jstr ("/tmp/" ++ mnt))])]

def entryAst (img : String) (i : Nat) (k : String) : Json :=
  .jobj [("image", .jstr img),
         ("name", .jstr ("secrets-init-container-" ++ itoa i)),
         ("volumeMounts", .jarr [.jobj [("name", .jstr "secret-vol"), ("mountPath", .jstr "/tmp")]]),
         ("env", .jarr [.jobj [("name", .jstr "SECRET_ARN"),
             ("valueFrom", .jobj [("fieldRef", .jobj [("fieldPath",
                .jstr ("metadata.annotations[\x27" ++ k ++ "\x27]"))])])]]),
         ("resources", .jobj [])]

/-! ## Composing ops into arrays -/

/-- The join `s₁ ++ "," ++ s₂ ++ "," ++ ...`: the comma-separated join that the
accumulation loops in `applyPodPatch` and `processAnnotations` produce. -/
def commaJoin : List String → String
  | [] => ""
  | [s] => s
  | s :: rest => s ++ "," ++ commaJoin rest

/-- Means `s`, scanned from value position, completes exactly the value `a` without
touching the surrounding stack. -/
def ScansToVal (s : String) (a : Json) : Prop :=
  ∀ (f : Bool) (st : List JFrame), scanStr ⟨.val f, st⟩ s = ⟨.post a, st⟩

/-- The entry strings (bodies, without the trailing comma) that the
`processAnnotations` loop produces, starting at counter `i`. -/
def entryBodies (img : String) : List String → Nat → List String
  | [], _ => []
  | k :: ks, i => initContainerEntryBody img i k :: entryBodies img ks (i + 1)

/-- The parsed values of those entries. -/
def entryAsts (img : String) : List String → Nat → List Json
  | [], _ => []
  | k :: ks, i => entryAst img i k :: entryAsts img ks (i + 1)

def initOpAst (entries : List Json) : Json :=
  .jobj [("op", .jstr "add"), ("path", .jstr "/spec/initContainers"), ("value", .jarr entries)]

/-- The parsed form of the whole assembled patch. -/
def patchAst (img : String) (keys : List String) (n : Nat) (mnt : String) : Json :=
  .jarr (initOpAst (entryAsts img keys 0) :: volOpAst ::
    ((List.range n).map (fun i => vmOpAst i mnt) ++ (List.range n).map (fun i => envOpAst i mnt)))

/-- The patch string assembled by `applyPodPatch` for a pod with matched
annotation keys `keys` and `n` containers. -/
def fullPatchString (img : String) (keys : List String) (n : Nat) (mnt : String) : String :=
  ("[" ++ (shellA ++ commaJoin (entryBodies img keys 0) ++ shellB) ++ secretsMountPointPatch) ++
    "," ++ buildVolMounts n mnt ++ "," ++ buildEnvPatches n mnt ++ "]"

/-! ## Observation helpers on outcomes and responses -/

/-- Whether the outcome is a normal return whose response carries patch bytes. -/
def hasPatch : GoOutcome (Option AdmissionResponse) → Bool
  | .ret (some r) => r.patch.isSome
  | _ => false

/-- The `allowed` flag of a normally returned, non-nil response. -/
def allowedOf : GoOutcome (Option AdmissionResponse) → Option Bool
  | .ret (some r) => some r.allowed
  | _ => none

/-- The patch bytes of a normally returned response, or `""`. -/
def patchStringOf : GoOutcome (Option AdmissionResponse) → String
  | .ret (some r) => r.patch.getD ""
  | _ => ""

/-- The result message of a response, or `""`. -/
def respMsg (r : AdmissionResponse) : String :=
  match r.result with
  | some s => s.message
  | none => ""

/-- The pod of C1: the result of applying the annotation-driven patch to a pod
with the single secret annotation `secrets.k8s.aws/secret-arn` and one
container -- its `initContainers` hold exactly the injected init container
`secrets-init-container-0`. -/
def alreadyPatchedPod : Pod :=
  { labels := [],
    annotations := [("secrets.k8s.aws/secret-arn", "arn:aws:secretsmanager:us-east-1:111122223333:secret:db-creds")],
    containers := [{ name := "app" }],
    initContainers := [{ name := "secrets-init-container-0" }] }

def alreadyPatchedReview : AdmissionReview :=
  { request := { resource := podResource, subResource := "", name := "pod",
                 object := .podObj alreadyPatchedPod } }

def noAnnotationPod : Pod :=
  { labels := [], annotations := [], containers := [{ name := "app" }], initContainers := [] }

def noAnnotationReview : AdmissionReview :=
  { request := { resource := podResource, subResource := "", name := "pod",
                 object := .podObj noAnnotationPod } }

def oneAnnotationPod : Pod :=
  { labels := [],
    annotations := [("secrets.k8s.aws/secret-arn", "arn:aws:secretsmanager:us-east-1:111122223333:secret:db-creds")],
    containers := [{ name := "app" }], initContainers := [] }

def oneAnnotationReview : AdmissionReview :=
  { request := { resource := podResource, subResource := "", name := "pod",
                 object := .podObj oneAnnotationPod } }

def wrongResourceReview : AdmissionReview :=
  { request := { resource := { group := "apps", version := "v1", resource := "deployments" },
                 subResource := "", name := "pod", object := .podObj noAnnotationPod } }

def attachWrongSubReview : AdmissionReview :=
  { request := { resource := podResource, subResource := "", name := "to-be-attached-pod",
                 object := .attachObj { stdin := true, container := "container1" } } }

def attachOtherNameReview : AdmissionReview :=
  { request := { resource := podResource, subResource := "attach", name := "other-pod",
                 object := .attachObj { stdin := true, container := "container1" } } }

def attachExactReview : AdmissionReview :=
  { request := { resource := podResource, subResource := "attach", name := "to-be-attached-pod",
                 object := .attachObj { stdin := true, container := "container1" } } }

def attachNoStdinReview : AdmissionReview :=
  { request := { resource := podResource, subResource := "attach", name := "to-be-attached-pod",
                 object := .attachObj { stdin := false, container := "container1" } } }

/-! ## Substring and trimming lemmas for the admit messages -/

def waitForeverPod : Pod :=
  { labels := [("webhook-e2e-test", "wait-forever")], annotations := [],
    containers := [{ name := "app" }], initContainers := [] }

def waitForeverReview : AdmissionReview :=
  { request := { resource := podResource, subResource := "", name := "pod",
                 object := .podObj waitForeverPod } }

/-- The deny message `admitPods` accumulates for a pod. -/
def admitMsg (pod : Pod) : String :=
  (if lookupStr pod.labels "webhook-e2e-test" = some "webhook-disallow"
    then "the pod contains unwanted label; " else "") ++
  joinAll ((pod.containers.filter (fun c => strContains c.name "webhook-disallow")).map
    (fun _ => "the pod contains unwanted container name; "))

def disallowLabelPod : Pod :=
  { labels := [("webhook-e2e-test", "webhook-disallow")], annotations := [],
    containers := [{ name := "app" }], initContainers := [] }

def disallowContPod : Pod :=
  { labels := [], annotations := [],
    containers := [{ name := "webhook-disallow-sidecar" }], initContainers := [] }

def disallowBothPod : Pod :=
  { labels := [("webhook-e2e-test", "webhook-disallow")], annotations := [],
    containers := [{ name := "webhook-disallow-sidecar" }], initContainers := [] }

def cleanReviewOf (pod : Pod) : AdmissionReview :=
  { request := { resource := podResource, subResource := "", name := "pod",
                 object := .podObj pod } }

/-! ## Accessors over parsed patch operations -/

def lookupJ : List (String × Json) → String → Option Json
  | [], _ => none
  | (k, v) :: rest, key => if k = key then some v else lookupJ rest key

def objField (j : Json) (key : String) : Option Json :=
  match j with
  | .jobj fs => lookupJ fs key
  | _ => none

def pathOf (j : Json) : Option String :=
  match objField j "path" with
  | some (.jstr p) => some p
  | _ => none

def opOf (j : Json) : Option String :=
  match objField j "op" with
  | some (.jstr o) => some o
  | _ => none

def mountPathOf (j : Json) : Option String :=
  match objField j "value" with
  | some v =>
    match objField v "mountPath" with
    | some (.jstr p) => some p
    | _ => none
  | none => none

def volNameOf (j : Json) : Option String :=
  match objField j "value" with
  | some v =>
    match objField v "name" with
    | some (.jstr p) => some p
    | _ => none
  | none => none

def strEndsWith (s pat : String) : Bool :=
  List.isSuffixOf pat.data s.data

/-- An `add` operation whose path appends to some container's `volumeMounts`. -/
def isVmAddOp (j : Json) : Bool :=
  (match opOf j with
   | some o => o == "add"
   | none => false) &&
  (match pathOf j with
   | some p => strEndsWith p "/volumeMounts/-"
   | none => false)

def entryNameOf (j : Json) : Option Json :=
  objField j "name"

def entryFieldPathOf (j : Json) : Option String :=
  match objField j "env" with
  | some (.jarr [e]) =>
    (match objField e "valueFrom" with
     | some vf =>
       (match objField vf "fieldRef" with
        | some fr =>
          (match objField fr "fieldPath" with
           | some (.jstr p) => some p
           | _ => none)
        | _ => none)
     | _ => none)
  | _ => none

def c2Key : String := "secrets.k8s.aws/secret-arn"

def c2Pod : Pod :=
  { labels := [],
    annotations := [(c2Key, "arn:aws:secretsmanager:us-east-1:111122223333:secret:db-creds")],
    containers := [{ name := "app" }, { name := "logging-sidecar" }], initContainers := [] }

def c2Review : AdmissionReview := cleanReviewOf c2Pod

/-! ## Theorems -/

theorem strData_append (a b : String) : (a ++ b).data = a.data ++ b.data := by
  cases a; cases b; rfl

theorem mk_append_data (a b : String) : String.mk (a.data ++ b.data) = a ++ b := by
  cases a; cases b; rfl

theorem scanChars_append (st : JState) (a b : List Char) :
    scanChars st (a ++ b) = scanChars (scanChars st a) b := by
  simp [scanChars, List.foldl_append]

theorem scanStr_append (st : JState) (a b : String) :
    scanStr st (a ++ b) = scanStr (scanStr st a) b := by
  simp [scanStr, strData_append, scanChars_append]

theorem scanChars_cons (st : JState) (c : Char) (l : List Char) :
    scanChars st (c :: l) = scanChars (scanStep st c) l := rfl

theorem scan_safe_chars : ∀ (l : List Char), l.all safeChar = true →
    ∀ (buf : List Char) (k : Bool) (st : List JFrame),
    scanChars ⟨.inStr buf k, st⟩ l = ⟨.inStr (buf ++ l) k, st⟩ := by
  intro l
  induction l with
  | nil => intro _ buf k st; simp [scanChars]
  | cons c cs ih =>
    intro h buf k st
    simp only [List.all_cons, Bool.and_eq_true] at h
    obtain ⟨hc, hcs⟩ := h
    simp only [safeChar, Bool.and_eq_true, Bool.not_eq_true', decide_eq_true_eq,
      decide_eq_false_iff_not] at hc
    obtain ⟨⟨h34, h92⟩, h32⟩ := hc
    rw [scanChars_cons]
    have hstep : scanStep ⟨.inStr buf k, st⟩ c = ⟨.inStr (buf ++ [c]) k, st⟩ := by
      simp [scanStep, h34, h92, Nat.not_lt.mpr h32]
    rw [hstep, ih hcs]
    simp

/-- Scanning a JSON-safe string while inside a string literal appends its
characters to the buffer. -/
theorem scan_safe (s : String) (h : jsonSafe s = true) (buf : List Char) (k : Bool)
    (st : List JFrame) :
    scanStr ⟨.inStr buf k, st⟩ s = ⟨.inStr (buf ++ s.data) k, st⟩ :=
  scan_safe_chars s.data h buf k st

theorem digitChar_safe (n : Nat) : safeChar (digitChar n) = true := by
  unfold digitChar
  repeat' split
  all_goals decide

theorem natCharsAux_safe (fuel n : Nat) : (natCharsAux fuel n).all safeChar = true := by
  induction fuel generalizing n with
  | zero => simp [natCharsAux]
  | succ fuel ih =>
    rw [natCharsAux]
    split
    · simp [digitChar_safe]
    · simp [List.all_append, ih, digitChar_safe]

theorem itoa_safe (n : Nat) : jsonSafe (itoa n) = true :=
  natCharsAux_safe (n + 1) n

/-- Closing quote of a string value. -/
theorem scan_closeVal (buf : List Char) (st : List JFrame) :
    scanStep ⟨.inStr buf false, st⟩ '"' = ⟨.post (.jstr (String.mk buf)), st⟩ := rfl

/-- Closing quote of an object key. -/
theorem scan_closeKey (buf : List Char) (st : List JFrame) :
    scanStep ⟨.inStr buf true, st⟩ '"' = ⟨.colon (String.mk buf), st⟩ := rfl

theorem mk_data (s : String) : String.mk s.data = s := rfl

theorem natChars_eq_data (n : Nat) : natChars n = (itoa n).data := rfl

theorem strAppend_assoc (a b c : String) : (a ++ b) ++ c = a ++ (b ++ c) := by
  apply String.ext
  simp [String.data_append, List.append_assoc]

/-- Single closing quote of a string value. -/
theorem scanStr_closeVal (buf : List Char) (st : List JFrame) :
    scanStr ⟨.inStr buf false, st⟩ "\"" = ⟨.post (.jstr (String.mk buf)), st⟩ := rfl

theorem scan_vmOp (i : Nat) (mnt : String) (h : jsonSafe mnt = true) (f : Bool) (st : List JFrame) :
    scanStr ⟨.val f, st⟩ (vmOp i mnt) = ⟨.post (vmOpAst i mnt), st⟩ := by
  have e : vmOp i mnt =
      vmPath ++ itoa i ++ "/volumeMounts/-" ++ "\"" ++ ",\"value\": \x7b\"mountPath\": \"" ++
        "/tmp/" ++ mnt ++ "\"" ++ ",\"name\": \"secret-vol\"\x7d\x7d" := by
    simp only [vmOp, vmValue, vmValueA, vmValueB, strAppend_assoc]
    rfl
  rw [e]
  simp only [scanStr_append]
  rw [show scanStr ⟨.val f, st⟩ vmPath =
        ⟨.inStr ("/spec/containers/".data) false, .objF [("op", .jstr "add")] "path" :: st⟩ from rfl]
  rw [scan_safe (itoa i) (itoa_safe i)]
  rw [scan_safe "/volumeMounts/-" (by decide)]
  rw [scanStr_closeVal]
  rw [show scanStr ⟨.post (.jstr (String.mk ("/spec/containers/".data ++ (itoa i).data ++ "/volumeMounts/-".data))),
        .objF [("op", .jstr "add")] "path" :: st⟩ ",\"value\": \x7b\"mountPath\": \"" =
        ⟨.inStr [] false, .objF [] "mountPath" ::
          .objF [("path", .jstr (String.mk ("/spec/containers/".data ++ (itoa i).data ++ "/volumeMounts/-".data))),
                 ("op", .jstr "add")] "value" :: st⟩ from rfl]
  rw [scan_safe "/tmp/" (by decide)]
  rw [scan_safe mnt h]
  rw [scanStr_closeVal]
  rw [show scanStr ⟨.post (.jstr (String.mk ([] ++ "/tmp/".data ++ mnt.data))),
        .objF [] "mountPath" ::
          .objF [("path", .jstr (String.mk ("/spec/containers/".data ++ (itoa i).data ++ "/volumeMounts/-".data))),
                 ("op", .jstr "add")] "value" :: st⟩ ",\"name\": \"secret-vol\"\x7d\x7d" =
        ⟨.post (.jobj [("op", .jstr "add"),
           ("path", .jstr (String.mk ("/spec/containers/".data ++ (itoa i).data ++ "/volumeMounts/-".data))),
           ("value", .jobj [("mountPath", .jstr (String.mk ([] ++ "/tmp/".data ++ mnt.data))),
                            ("name", .jstr "secret-vol")])]), st⟩ from rfl]
  rfl

theorem scan_volOp (f : Bool) (st : List JFrame) :
    scanStr ⟨.val f, st⟩ secretsMountPointPatch = ⟨.post volOpAst, st⟩ := rfl

theorem scan_envOp (i : Nat) (mnt : String) (h : jsonSafe mnt = true) (f : Bool) (st : List JFrame) :
    scanStr ⟨.val f, st⟩ (envOp i mnt) = ⟨.post (envOpAst i mnt), st⟩ := by
  have e : envOp i mnt =
      envSegA ++ itoa i ++ "/env/-" ++ "\"" ++ ",\"value\":\x7b\"name\":\"SEC_LOC\",\"value\":\"" ++
        "/tmp/" ++ mnt ++ "\"" ++ "\x7d\x7d" := by
    simp only [envOp, envSegB, envSegC, strAppend_assoc]
    rfl
  rw [e]
  simp only [scanStr_append]
  rw [show scanStr ⟨.val f, st⟩ envSegA =
        ⟨.inStr ("/spec/containers/".data) false, .objF [("op", .jstr "add")] "path" :: st⟩ from rfl]
  rw [scan_safe (itoa i) (itoa_safe i)]
  rw [scan_safe "/env/-" (by decide)]
  rw [scanStr_closeVal]
  rw [show scanStr ⟨.post (.jstr (String.mk ("/spec/containers/".data ++ (itoa i).data ++ "/env/-".data))),
        .objF [("op", .jstr "add")] "path" :: st⟩ ",\"value\":\x7b\"name\":\"SEC_LOC\",\"value\":\"" =
        ⟨.inStr [] false, .objF [("name", .jstr "SEC_LOC")] "value" ::
          .objF [("path", .jstr (String.mk ("/spec/containers/".data ++ (itoa i).data ++ "/env/-".data))),
                 ("op", .jstr "add")] "value" :: st⟩ from rfl]
  rw [scan_safe "/tmp/" (by decide)]
  rw [scan_safe mnt h]
  rw [scanStr_closeVal]
  rfl

theorem scan_entryBody (img : String) (i : Nat) (k : String)
    (him : jsonSafe img = true) (hk : jsonSafe k = true) (f : Bool) (st : List JFrame) :
    scanStr ⟨.val f, st⟩ (initContainerEntryBody img i k) = ⟨.post (entryAst img i k), st⟩ := by
  have e : initContainerEntryBody img i k =
      entrySegA ++ img ++ "\"" ++ ",\"name\":\"secrets-init-container-" ++ itoa i ++ entrySegC ++
        k ++ "\x27]" ++ "\"" ++ "\x7d\x7d\x7d],\"resources\":\x7b\x7d\x7d" := by
    simp only [initContainerEntryBody, entrySegB, entrySegD, strAppend_assoc]
    rfl
  rw [e]
  simp only [scanStr_append]
  rw [show scanStr ⟨.val f, st⟩ entrySegA = ⟨.inStr [] false, .objF [] "image" :: st⟩ from rfl]
  rw [scan_safe img him]
  rw [scanStr_closeVal]
  rw [show scanStr ⟨.post (.jstr (String.mk ([] ++ img.data))), .objF [] "image" :: st⟩
        ",\"name\":\"secrets-init-container-" =
        ⟨.inStr ("secrets-init-container-".data) false,
         .objF [("image", .jstr (String.mk ([] ++ img.data)))] "name" :: st⟩ from rfl]
  rw [scan_safe (itoa i) (itoa_safe i)]
  rw [show scanStr ⟨.inStr ("secrets-init-container-".data ++ (itoa i).data) false,
        .objF [("image", .jstr (String.mk ([] ++ img.data)))] "name" :: st⟩ entrySegC =
        ⟨.inStr ("metadata.annotations[\x27".data) false,
         .objF [] "fieldPath" :: .objF [] "fieldRef" ::
         .objF [("name", .jstr "SECRET_ARN")] "valueFrom" :: .arrF [] ::
         .objF [("volumeMounts", .jarr [.jobj [("name", .jstr "secret-vol"), ("mountPath", .jstr "/tmp")]]),
                ("name", .jstr (String.mk ("secrets-init-container-".data ++ (itoa i).data))),
                ("image", .jstr (String.mk ([] ++ img.data)))] "env" :: st⟩ from ?_]
  rw [scan_safe k hk]
  rw [scan_safe "\x27]" (by decide)]
  rw [scanStr_closeVal]
  rfl
  case _ =>
    have e2 : entrySegC = "\"" ++ ",\"volumeMounts\":[\x7b\"name\":\"secret-vol\",\"mountPath\":\"/tmp\"\x7d],\"env\":[\x7b\"name\": \"SECRET_ARN\",\"valueFrom\": \x7b\"fieldRef\": \x7b\"fieldPath\": \"" ++ "metadata.annotations[\x27" := rfl
    rw [e2]
    simp only [scanStr_append]
    rw [scanStr_closeVal]
    rw [show scanStr ⟨.post (.jstr (String.mk ("secrets-init-container-".data ++ (itoa i).data))),
          .objF [("image", .jstr (String.mk ([] ++ img.data)))] "name" :: st⟩
          ",\"volumeMounts\":[\x7b\"name\":\"secret-vol\",\"mountPath\":\"/tmp\"\x7d],\"env\":[\x7b\"name\": \"SECRET_ARN\",\"valueFrom\": \x7b\"fieldRef\": \x7b\"fieldPath\": \"" =
          ⟨.inStr [] false,
           .objF [] "fieldPath" :: .objF [] "fieldRef" ::
           .objF [("name", .jstr "SECRET_ARN")] "valueFrom" :: .arrF [] ::
           .objF [("volumeMounts", .jarr [.jobj [("name", .jstr "secret-vol"), ("mountPath", .jstr "/tmp")]]),
                  ("name", .jstr (String.mk ("secrets-init-container-".data ++ (itoa i).data))),
                  ("image", .jstr (String.mk ([] ++ img.data)))] "env" :: st⟩ from rfl]
    rw [scan_safe "metadata.annotations[\x27" (by decide)]
    rfl

theorem commaJoin_cons₂ (s : String) (rest : List String) (h : rest ≠ []) :
    commaJoin (s :: rest) = s ++ "," ++ commaJoin rest := by
  match rest with
  | [] => exact absurd rfl h
  | r :: rs => rfl

theorem commaJoin_append (a b : List String) (ha : a ≠ []) (hb : b ≠ []) :
    commaJoin (a ++ b) = commaJoin a ++ "," ++ commaJoin b := by
  induction a with
  | nil => exact absurd rfl ha
  | cons s a ih =>
    match a with
    | [] =>
      rw [List.singleton_append, commaJoin_cons₂ s b hb]
      rfl
    | t :: ts =>
      rw [List.cons_append, commaJoin_cons₂ s ((t :: ts) ++ b) (by simp),
        commaJoin_cons₂ s (t :: ts) (by simp), ih (by simp)]
      simp [strAppend_assoc]

theorem scan_arrClose : ∀ (strs : List String) (asts : List Json),
    List.Forall₂ ScansToVal strs asts → strs ≠ [] →
    ∀ (f : Bool) (acc : List Json) (st : List JFrame),
    scanStr ⟨.val f, .arrF acc :: st⟩ (commaJoin strs ++ "]") =
      ⟨.post (.jarr (acc.reverse ++ asts)), st⟩ := by
  intro strs asts hall
  induction hall with
  | nil => intro h; exact absurd rfl h
  | @cons s a strs' asts' hsa hall' ih =>
    intro _ f acc st
    match strs', asts', hall' with
    | [], [], _ =>
      rw [show commaJoin [s] = s from rfl, scanStr_append, hsa]
      rw [show scanStr ⟨.post a, .arrF acc :: st⟩ "]" =
        ⟨.post (.jarr ((a :: acc).reverse)), st⟩ from rfl]
      simp
    | t :: ts, b :: bs, hall' =>
      rw [commaJoin_cons₂ s (t :: ts) (by simp), strAppend_assoc, strAppend_assoc,
        scanStr_append, hsa, scanStr_append]
      rw [show scanStr ⟨.post a, .arrF acc :: st⟩ "," = ⟨.val false, .arrF (a :: acc) :: st⟩ from rfl]
      rw [ih (by simp) false (a :: acc) st]
      simp

theorem strEmpty_append (s : String) : "" ++ s = s := by
  apply String.ext
  simp [String.data_append]

theorem strAppend_empty (s : String) : s ++ "" = s := by
  apply String.ext
  simp [String.data_append]

theorem initEntriesAux_acc (img : String) :
    ∀ (ks : List String) (i : Nat) (acc : String),
    initEntriesAux img ks i acc = acc ++ initEntriesAux img ks i "" := by
  intro ks
  induction ks with
  | nil => intro i acc; simp [initEntriesAux, strAppend_empty]
  | cons k ks ih =>
    intro i acc
    rw [initEntriesAux, initEntriesAux, ih (i + 1) (acc ++ initContainerEntry img i k),
      ih (i + 1) ("" ++ initContainerEntry img i k), strEmpty_append, strAppend_assoc]

theorem initEntriesAux_ne_nil (img : String) (ks : List String) (i : Nat) (h : ks ≠ []) :
    (initEntriesAux img ks i "").data ≠ [] := by
  match ks with
  | [] => exact absurd rfl h
  | k :: ks =>
    rw [initEntriesAux, initEntriesAux_acc img ks (i + 1), strEmpty_append]
    simp [String.data_append, initContainerEntry]

theorem dropLast_initEntries (img : String) :
    ∀ (ks : List String) (i : Nat), ks ≠ [] →
    dropLastChar (initEntriesAux img ks i "") = commaJoin (entryBodies img ks i) := by
  intro ks
  induction ks with
  | nil => intro i h; exact absurd rfl h
  | cons k ks ih =>
    intro i _
    rw [initEntriesAux, initEntriesAux_acc img ks (i + 1), strEmpty_append]
    match ks with
    | [] =>
      rw [show initEntriesAux img [] (i + 1) "" = "" from rfl, strAppend_empty]
      show dropLastChar (initContainerEntryBody img i k ++ ",") = _
      unfold dropLastChar
      rw [String.data_append]
      simp [entryBodies, commaJoin, mk_data]
    | t :: ts =>
      rw [show entryBodies img (k :: t :: ts) i =
            initContainerEntryBody img i k :: entryBodies img (t :: ts) (i + 1) from rfl,
        commaJoin_cons₂ _ _ (by simp [entryBodies])]
      unfold dropLastChar
      rw [String.data_append,
        List.dropLast_append_of_ne_nil _ (initEntriesAux_ne_nil img (t :: ts) (i + 1) (by simp))]
      have ihx := ih (i + 1) (by simp)
      unfold dropLastChar at ihx
      have : String.mk (initContainerEntry img i k).data ++
          String.mk (initEntriesAux img (t :: ts) (i + 1) "").data.dropLast =
          initContainerEntry img i k ++ commaJoin (entryBodies img (t :: ts) (i + 1)) := by
        rw [ihx]
      rw [show String.mk ((initContainerEntry img i k).data ++
            (initEntriesAux img (t :: ts) (i + 1) "").data.dropLast) =
          String.mk (initContainerEntry img i k).data ++
            String.mk (initEntriesAux img (t :: ts) (i + 1) "").data.dropLast from by
          apply String.ext; simp [String.data_append]]
      rw [this]
      show (initContainerEntryBody img i k ++ ",") ++ _ = _
      rw [strAppend_assoc]

theorem buildVolMounts_eq (n : Nat) (mnt : String) :
    buildVolMounts n mnt = commaJoin ((List.range n).map (fun i => vmOp i mnt)) := by
  induction n with
  | zero => rfl
  | succ m ih =>
    rw [buildVolMounts, List.range_succ, List.foldl_append]
    match m, ih with
    | 0, _ => rfl
    | Nat.succ p, ih =>
      rw [show List.foldl _ "" (List.range (p + 1)) = buildVolMounts (p + 1) mnt from rfl, ih]
      rw [List.map_append, commaJoin_append _ _ (by simp [List.range_succ]) (by simp)]
      simp [commaJoin, vmOp, strAppend_assoc]

theorem buildEnvPatches_eq (n : Nat) (mnt : String) :
    buildEnvPatches n mnt = commaJoin ((List.range n).map (fun i => envOp i mnt)) := by
  induction n with
  | zero => rfl
  | succ m ih =>
    rw [buildEnvPatches, List.range_succ, List.foldl_append]
    match m, ih with
    | 0, _ => rfl
    | Nat.succ p, ih =>
      rw [show List.foldl _ "" (List.range (p + 1)) = buildEnvPatches (p + 1) mnt from rfl, ih]
      rw [List.map_append, commaJoin_append _ _ (by simp [List.range_succ]) (by simp)]
      simp [commaJoin, strAppend_assoc]

theorem forall₂_map {α : Type} (l : List α) (fs : α → String) (gs : α → Json)
    (h : ∀ x ∈ l, ScansToVal (fs x) (gs x)) :
    List.Forall₂ ScansToVal (l.map fs) (l.map gs) := by
  induction l with
  | nil => exact List.Forall₂.nil
  | cons x xs ih =>
    exact List.Forall₂.cons (h x (by simp)) (ih (fun y hy => h y (by simp [hy])))

theorem forall₂_entries (img : String) :
    ∀ (ks : List String) (i : Nat), jsonSafe img = true →
    (∀ k ∈ ks, jsonSafe k = true) →
    List.Forall₂ ScansToVal (entryBodies img ks i) (entryAsts img ks i) := by
  intro ks
  induction ks with
  | nil => intro i _ _; exact List.Forall₂.nil
  | cons k ks ih =>
    intro i him hk
    exact List.Forall₂.cons
      (fun f st => scan_entryBody img i k him (hk k (by simp)) f st)
      (ih (i + 1) him (fun y hy => hk y (by simp [hy])))

theorem scan_initOp (bodies : List String) (asts : List Json)
    (h : List.Forall₂ ScansToVal bodies asts) (hne : bodies ≠ []) :
    ScansToVal (shellA ++ commaJoin bodies ++ "]\x7d") (initOpAst asts) := by
  intro f st
  rw [show (shellA ++ commaJoin bodies ++ "]\x7d" : String) =
      shellA ++ ((commaJoin bodies ++ "]") ++ "\x7d") from by
    simp [strAppend_assoc]]
  rw [scanStr_append, scanStr_append]
  rw [show scanStr ⟨.val f, st⟩ shellA =
      ⟨.val true, .arrF [] :: .objF [("path", .jstr "/spec/initContainers"), ("op", .jstr "add")]
        "value" :: st⟩ from rfl]
  rw [scan_arrClose bodies asts h hne]
  rfl

theorem found_keys_ne (pod : Pod)
    (h : pod.annotations.any (fun kv => isSecretAnnKey kv.1) = true) :
    secretAnnKeys pod ≠ [] := by
  intro hnil
  rw [secretAnnKeys, List.filter_eq_nil_iff] at hnil
  rw [List.any_eq_true] at h
  obtain ⟨kv, hmem, hsec⟩ := h
  exact hnil kv.1 (List.mem_map_of_mem Prod.fst hmem) hsec

theorem shouldPatch_found (pod : Pod) (h : mutatePodsShouldPatch pod = true) :
    pod.annotations.any (fun kv => isSecretAnnKey kv.1) = true := by
  unfold mutatePodsShouldPatch at h
  by_cases hf : pod.annotations.any (fun kv => isSecretAnnKey kv.1) = true
  · exact hf
  · simp [hf] at h

theorem processAnnotations_ret (img : String) (pod : Pod) (h : secretAnnKeys pod ≠ []) :
    processAnnotations img pod =
      .ret ("[" ++ (shellA ++ commaJoin (entryBodies img (secretAnnKeys pod) 0) ++ shellB) ++
        secretsMountPointPatch) := by
  have hne := initEntriesAux_ne_nil img (secretAnnKeys pod) 0 h
  have hlen : ¬ ((initEntriesAux img (secretAnnKeys pod) 0 "").length = 0) :=
    fun h0 => hne (List.length_eq_zero.mp h0)
  show (if (initEntriesAux img (secretAnnKeys pod) 0 "").length = 0 then GoOutcome.panics
    else .ret (("[" ++ initContainersShell (dropLastChar (initEntriesAux img (secretAnnKeys pod) 0 ""))) ++
      secretsMountPointPatch)) = _
  rw [if_neg hlen, dropLast_initEntries img (secretAnnKeys pod) 0 h]
  rfl

theorem applyPodPatch_patches (ar : AdmissionReview) (pod : Pod) (shouldPP : Pod → Bool)
    (patch1 mnt img : String)
    (hres : ar.request.resource = podResource)
    (hobj : ar.request.object = .podObj pod)
    (hsp : shouldPP pod = true)
    (hkeys : secretAnnKeys pod ≠ []) :
    applyPodPatch ar shouldPP patch1 mnt img =
      .ret (some { allowed := true,
                   patch := some (fullPatchString img (secretAnnKeys pod) pod.containers.length mnt),
                   patchType := some "JSONPatch" }) := by
  unfold applyPodPatch
  rw [hres, hobj]
  simp only [ne_eq, not_true_eq_false, if_false, decodePod, hsp, if_true, ite_false, ite_true,
    processAnnotations_ret img pod hkeys]
  rfl

theorem entryBodies_ne_nil (img : String) (keys : List String) (i : Nat) (h : keys ≠ []) :
    entryBodies img keys i ≠ [] := by
  match keys with
  | [] => exact absurd rfl h
  | k :: ks => simp [entryBodies]

theorem fullPatch_eq_arr (img : String) (keys : List String) (n : Nat) (mnt : String)
    (hkeys : keys ≠ []) (hn : n ≠ 0) :
    fullPatchString img keys n mnt =
      "[" ++ commaJoin ((shellA ++ commaJoin (entryBodies img keys 0) ++ "]\x7d") ::
        secretsMountPointPatch ::
        ((List.range n).map (fun i => vmOp i mnt) ++ (List.range n).map (fun i => envOp i mnt))) ++
      "]" := by
  have hvm : (List.range n).map (fun i => vmOp i mnt) ≠ [] := by
    simp [List.range_eq_nil, hn]
  have henv : (List.range n).map (fun i => envOp i mnt) ≠ [] := by
    simp [List.range_eq_nil, hn]
  rw [commaJoin_cons₂ _ _ (by simp), commaJoin_cons₂ _ _ (by simp [hvm]),
    commaJoin_append _ _ hvm henv]
  unfold fullPatchString
  rw [buildVolMounts_eq, buildEnvPatches_eq,
    show shellB = "]\x7d" ++ "," from rfl]
  simp [strAppend_assoc]

theorem parse_fullPatch (img mnt : String) (keys : List String) (n : Nat)
    (him : jsonSafe img = true) (hm : jsonSafe mnt = true)
    (hk : ∀ k ∈ keys, jsonSafe k = true) (hkeys : keys ≠ []) (hn : n ≠ 0) :
    jsonParse (fullPatchString img keys n mnt) = some (patchAst img keys n mnt) := by
  rw [fullPatch_eq_arr img keys n mnt hkeys hn]
  have hforall : List.Forall₂ ScansToVal
      ((shellA ++ commaJoin (entryBodies img keys 0) ++ "]\x7d") :: secretsMountPointPatch ::
        ((List.range n).map (fun i => vmOp i mnt) ++ (List.range n).map (fun i => envOp i mnt)))
      (initOpAst (entryAsts img keys 0) :: volOpAst ::
        ((List.range n).map (fun i => vmOpAst i mnt) ++ (List.range n).map (fun i => envOpAst i mnt))) := by
    refine List.Forall₂.cons ?_ (List.Forall₂.cons ?_ (List.rel_append ?_ ?_))
    · exact scan_initOp _ _ (forall₂_entries img keys 0 him hk) (entryBodies_ne_nil img keys 0 hkeys)
    · exact fun f st => scan_volOp f st
    · exact forall₂_map _ _ _ (fun i _ => fun f st => scan_vmOp i mnt hm f st)
    · exact forall₂_map _ _ _ (fun i _ => fun f st => scan_envOp i mnt hm f st)
  unfold jsonParse
  have : scanChars ⟨.val false, []⟩ ("[" ++ commaJoin ((shellA ++ commaJoin (entryBodies img keys 0) ++ "]\x7d") ::
        secretsMountPointPatch ::
        ((List.range n).map (fun i => vmOp i mnt) ++ (List.range n).map (fun i => envOp i mnt))) ++ "]").data =
      ⟨.post (patchAst img keys n mnt), []⟩ := by
    show scanStr ⟨.val false, []⟩ _ = _
    rw [strAppend_assoc, scanStr_append]
    rw [show scanStr ⟨.val false, []⟩ "[" = ⟨.val true, [.arrF []]⟩ from rfl]
    rw [scan_arrClose _ _ hforall (by simp) true [] []]
    simp [patchAst]
  rw [this]

theorem applyPodPatch_noPatch (ar : AdmissionReview) (pod : Pod) (shouldPP : Pod → Bool)
    (patch1 mnt img : String)
    (hres : ar.request.resource = podResource)
    (hobj : ar.request.object = .podObj pod)
    (hsp : shouldPP pod = false) :
    applyPodPatch ar shouldPP patch1 mnt img = .ret (some { allowed := true }) := by
  unfold applyPodPatch
  rw [hres, hobj]
  simp [decodePod, hsp]

/-- C1: the annotation-driven mutation is not idempotent: on a pod already
containing the injected init container `secrets-init-container-0`, the guard
`hasContainer (initContainers, "secrets-init-container")` does not match (it
compares for the exact name), so `mutatePods` mutates again: the second call
allows but returns another non-empty patch instead of an empty one. -/
theorem mutatePods_repatches_already_patched_pod :
    mutatePodsShouldPatch alreadyPatchedPod = true ∧
    allowedOf (mutatePods alreadyPatchedReview "11111111-2222-3333-4444-555555555555" "init-img") = some true ∧
    hasPatch (mutatePods alreadyPatchedReview "11111111-2222-3333-4444-555555555555" "init-img") = true := by
  refine ⟨by decide, ?_, ?_⟩ <;> rfl

/-- C4: the sidecar strategy never appends `webhook-added-sidecar`:
`applyPodPatch` ignores its `patch1` argument (the prepared `podsSidecarPatch`)
and always runs the annotation-driven builder. On a pod with no
secrets-prefixed annotations it panics on the empty-scan slicing, and on a pod
with one such annotation it returns the init-container patch, whose bytes do
not even mention the sidecar container name. -/
theorem mutatePodsSidecar_ignores_sidecar_patch :
    mutatePodsSidecar noAnnotationReview "11111111-2222-3333-4444-555555555555" "sidecar-img" = .panics ∧
    hasPatch (mutatePodsSidecar oneAnnotationReview "11111111-2222-3333-4444-555555555555" "sidecar-img") = true ∧
    strContains (patchStringOf (mutatePodsSidecar oneAnnotationReview "11111111-2222-3333-4444-555555555555" "sidecar-img"))
      "webhook-added-sidecar" = false := by
  refine ⟨rfl, rfl, by decide⟩

/-- C8: with the `SidecarOnly` strategy and no configured sidecar image,
`mutatePodsSidecar` immediately returns `allowed = false` with a `Failure`
status of code 500 and the explanatory message, for every request whatsoever:
the resource is never validated and the pod never decoded. -/
theorem mutatePodsSidecar_empty_image_500 :
    ∀ (ar : AdmissionReview) (mountLocation : String),
    mutatePodsSidecar ar mountLocation "" =
      .ret (some { allowed := false,
                   result := some { status := "Failure",
                                    message := "No image specified by the sidecar-image parameter",
                                    code := 500 } }) := by
  intro ar mountLocation
  rfl

/-- C10: the legacy `mutatePods` patches only pods whose annotations contain
the literal key `secrets.k8s.aws/secret-arn`: whenever that exact key is
absent, `shouldPatchPod` is false and the response allows with no patch, even
if other `secrets.k8s.aws`-prefixed annotations are present. -/
theorem legacy_mutatePods_requires_exact_arn_key :
    ∀ (ar : AdmissionReview) (pod : Pod) (img : String),
    ar.request.resource = podResource →
    ar.request.object = .podObj pod →
    lookupStr pod.annotations "secrets.k8s.aws/secret-arn" = none →
    Legacy.shouldPatchPod img pod = false ∧
    Legacy.mutatePods ar img = .ret (some { allowed := true }) := by
  intro ar pod img hres hobj harn
  have hsp : Legacy.shouldPatchPod img pod = false := by
    unfold Legacy.shouldPatchPod
    rw [harn]
    simp
  refine ⟨hsp, ?_⟩
  unfold Legacy.mutatePods Legacy.applyPodPatch
  rw [hres, hobj]
  simp [decodePod, hsp]

theorem legacy_mutatePods_requires_exact_arn_key_witness :
    ((⟨⟨podResource, "", "pod", .podObj ⟨[], [("secrets.k8s.aws/other-secret", "x")], [⟨"app"⟩], []⟩⟩⟩ :
        AdmissionReview).request.resource = podResource) ∧
    lookupStr [("secrets.k8s.aws/other-secret", "x")] "secrets.k8s.aws/secret-arn" = none ∧
    (Legacy.shouldPatchPod "img" ⟨[], [("secrets.k8s.aws/other-secret", "x")], [⟨"app"⟩], []⟩ = false ∧
     Legacy.mutatePods ⟨⟨podResource, "", "pod", .podObj ⟨[], [("secrets.k8s.aws/other-secret", "x")], [⟨"app"⟩], []⟩⟩⟩ "img" =
       .ret (some { allowed := true })) :=
  ⟨rfl, by decide,
    legacy_mutatePods_requires_exact_arn_key
      ⟨⟨podResource, "", "pod", .podObj ⟨[], [("secrets.k8s.aws/other-secret", "x")], [⟨"app"⟩], []⟩⟩⟩
      ⟨[], [("secrets.k8s.aws/other-secret", "x")], [⟨"app"⟩], []⟩ "img" rfl rfl (by decide)⟩

/-- C9: `writeOutput` appends one `export KEY=VALUE;` line per pair of the
unmarshalled flat JSON string map, and appends nothing when the payload does
not unmarshal into such a map; in particular a bare non-JSON string payload
(such as a raw secret value) leaves the output file unchanged. -/
theorem writeOutput_spec :
    (∀ (s file : String) (pairs : List (String × String)),
      unmarshalStringMap s = some pairs →
      writeOutput s file = file ++ joinAll (pairs.map exportLine) ∧
      (pairs.map exportLine).length = pairs.length) ∧
    (∀ (s file : String), unmarshalStringMap s = none → writeOutput s file = file) ∧
    unmarshalStringMap "arn:aws:secretsmanager:us-east-1:111122223333:secret:db-creds" = none ∧
    (∀ (file : String),
      writeOutput "arn:aws:secretsmanager:us-east-1:111122223333:secret:db-creds" file = file) := by
  refine ⟨?_, ?_, rfl, ?_⟩
  · intro s file pairs h
    unfold writeOutput
    rw [h]
    exact ⟨rfl, by simp⟩
  · intro s file h
    unfold writeOutput
    rw [h]
  · intro file
    rfl

theorem writeOutput_spec_witness :
    unmarshalStringMap "\x7b\"API_KEY\":\"hunter2\"\x7d" = some [("API_KEY", "hunter2")] ∧
    (writeOutput "\x7b\"API_KEY\":\"hunter2\"\x7d" "" =
        "" ++ joinAll ([("API_KEY", "hunter2")].map exportLine) ∧
      ([("API_KEY", "hunter2")].map exportLine).length = [("API_KEY", "hunter2")].length) ∧
    writeOutput "not a json object" "previous" = "previous" :=
  ⟨rfl, writeOutput_spec.1 _ "" _ rfl, writeOutput_spec.2.1 _ "previous" rfl⟩

/-- C3 counterexample: the mutation evaluator does not always return a
structured response: on a non-pod resource `applyPodPatch` returns the nil
pointer (`ret none`), and `mutatePodsSidecar` panics on a pod with no
secrets-prefixed annotations (the slicing in `processAnnotations` runs on an
empty scan result). -/
theorem mutation_nil_and_panic_counterexample :
    mutatePods wrongResourceReview "11111111-2222-3333-4444-555555555555" "img" = .ret none ∧
    mutatePodsSidecar noAnnotationReview "11111111-2222-3333-4444-555555555555" "sidecar-img" = .panics :=
  ⟨rfl, rfl⟩

/-- C3 amended: on a resource mismatch both mutation entry points return nil
(not a structured response); `mutatePods` itself never panics and never
blocks -- in particular the empty-scan slicing in `processAnnotations` is
unreachable from `mutatePods` because its `shouldPatchPod` requires a matched
annotation -- and on a well-formed pod request `mutatePods` returns a non-nil
response with `allowed = true`. (`mutatePodsSidecar` can still panic, as the
counterexample shows.) -/
theorem mutation_response_amended :
    (∀ (ar : AdmissionReview) (mnt img : String), ar.request.resource ≠ podResource →
      mutatePods ar mnt img = .ret none ∧ (img ≠ "" → mutatePodsSidecar ar mnt img = .ret none)) ∧
    (∀ (ar : AdmissionReview) (mnt img : String),
      mutatePods ar mnt img ≠ .panics ∧ mutatePods ar mnt img ≠ .blocksForever) ∧
    (∀ (ar : AdmissionReview) (pod : Pod) (mnt img : String),
      ar.request.resource = podResource → ar.request.object = .podObj pod →
      ∃ r, mutatePods ar mnt img = .ret (some r) ∧ r.allowed = true) := by
  refine ⟨?_, ?_, ?_⟩
  · intro ar mnt img hres
    constructor
    · unfold mutatePods applyPodPatch
      rw [if_pos hres]
    · intro himg
      unfold mutatePodsSidecar applyPodPatch
      rw [if_neg himg, if_pos hres]
  · intro ar mnt img
    unfold mutatePods applyPodPatch
    by_cases hres : ar.request.resource = podResource
    · rw [if_neg (by simp [hres])]
      cases hobj : ar.request.object with
      | podObj p =>
        simp only [decodePod]
        by_cases hsp : mutatePodsShouldPatch p = true
        · rw [if_pos hsp,
            processAnnotations_ret img p (found_keys_ne p (shouldPatch_found p hsp))]
          exact ⟨by simp, by simp⟩
        · rw [if_neg hsp]
          exact ⟨by simp, by simp⟩
      | attachObj o => simp [decodePod]
      | badObj => simp [decodePod]
    · rw [if_pos hres]
      exact ⟨by simp, by simp⟩
  · intro ar pod mnt img hres hobj
    by_cases hsp : mutatePodsShouldPatch pod = true
    · refine ⟨_, applyPodPatch_patches ar pod mutatePodsShouldPatch "" mnt img hres hobj hsp
        (found_keys_ne pod (shouldPatch_found pod hsp)), rfl⟩
    · exact ⟨_, applyPodPatch_noPatch ar pod mutatePodsShouldPatch "" mnt img hres hobj
        (by simpa using hsp), rfl⟩

theorem mutation_response_amended_witness :
    wrongResourceReview.request.resource ≠ podResource ∧
    mutatePods wrongResourceReview "u" "i" = .ret none ∧
    mutatePods oneAnnotationReview "u" "i" ≠ .panics ∧
    (∃ r, mutatePods oneAnnotationReview "u" "i" = .ret (some r) ∧ r.allowed = true) :=
  ⟨by decide,
   (mutation_response_amended.1 wrongResourceReview "u" "i" (by decide)).1,
   (mutation_response_amended.2.1 oneAnnotationReview "u" "i").1,
   mutation_response_amended.2.2 oneAnnotationReview oneAnnotationPod "u" "i" rfl rfl⟩

/-- C7 counterexample: with the request name equal to the sentinel
`to-be-attached-pod` but the sub-resource differing from `attach` (all other
fields as in the denied combination), `denySpecificAttachment` does not allow:
it returns the structured error response, whose `allowed` is false. -/
theorem denyAttach_subresource_mismatch_denies :
    denySpecificAttachment attachWrongSubReview =
      some (toV1AdmissionResponse "expect subresource to be attach") ∧
    (toV1AdmissionResponse "expect subresource to be attach").allowed = false :=
  ⟨rfl, rfl⟩

/-- C7 amended: `denySpecificAttachment` denies exactly the combination
{name = to-be-attached-pod, sub-resource = attach, stdin = true,
container = container1}; a differing name, stdin or container yields
`allowed = true`, but a differing sub-resource (with the sentinel name) yields
a structured error response with `allowed = false`, not an allow. -/
theorem denySpecificAttachment_amended :
    (∀ ar : AdmissionReview, ar.request.name ≠ "to-be-attached-pod" →
      denySpecificAttachment ar = some { allowed := true }) ∧
    (∀ (ar : AdmissionReview) (opts : PodAttachOptions),
      ar.request.name = "to-be-attached-pod" → ar.request.resource = podResource →
      ar.request.subResource = "attach" → ar.request.object = .attachObj opts →
      (opts.stdin = true → opts.container = "container1" →
        ∃ r, denySpecificAttachment ar = some r ∧ r.allowed = false) ∧
      ((opts.stdin = false ∨ opts.container ≠ "container1") →
        denySpecificAttachment ar = some { allowed := true })) ∧
    (∀ ar : AdmissionReview,
      ar.request.name = "to-be-attached-pod" → ar.request.subResource ≠ "attach" →
      ar.request.resource = podResource →
      ∃ r, denySpecificAttachment ar = some r ∧ r.allowed = false) := by
  refine ⟨?_, ?_, ?_⟩
  · intro ar hname
    unfold denySpecificAttachment
    rw [if_pos hname]
  · intro ar opts hname hres hsub hobj
    constructor
    · intro hstdin hcont
      unfold denySpecificAttachment
      rw [if_neg (by simp [hname]), if_neg (by simp [hres]), if_neg (by simp [hsub]), hobj]
      simp only [decodeAttach, hstdin, hcont]
      exact ⟨_, rfl, rfl⟩
    · intro hother
      unfold denySpecificAttachment
      rw [if_neg (by simp [hname]), if_neg (by simp [hres]), if_neg (by simp [hsub]), hobj]
      simp only [decodeAttach]
      rcases hother with hstdin | hcont
      · rw [if_pos (by simp [hstdin])]
      · rw [if_pos (by simp [hcont])]
  · intro ar hname hsub hres
    unfold denySpecificAttachment
    rw [if_neg (by simp [hname]), if_neg (by simp [hres]), if_pos hsub]
    exact ⟨_, rfl, rfl⟩

theorem denySpecificAttachment_amended_witness :
    denySpecificAttachment attachOtherNameReview = some { allowed := true } ∧
    (∃ r, denySpecificAttachment attachExactReview = some r ∧ r.allowed = false) ∧
    denySpecificAttachment attachNoStdinReview = some { allowed := true } ∧
    (∃ r, denySpecificAttachment attachWrongSubReview = some r ∧ r.allowed = false) :=
  ⟨denySpecificAttachment_amended.1 _ (by decide),
   (denySpecificAttachment_amended.2.1 _ { stdin := true, container := "container1" } rfl rfl rfl rfl).1 rfl rfl,
   (denySpecificAttachment_amended.2.1 _ { stdin := false, container := "container1" } rfl rfl rfl rfl).2
     (Or.inl rfl),
   denySpecificAttachment_amended.2.2 attachWrongSubReview rfl (by decide) rfl⟩

theorem containsSub_iff (pat : List Char) : ∀ l : List Char, containsSub pat l = true ↔ pat <:+: l := by
  intro l
  induction l with
  | nil => simp [containsSub, List.isEmpty_iff, List.infix_nil]
  | cons c rest ih =>
    simp [containsSub, List.isPrefixOf_iff_prefix, ih, List.infix_cons_iff]

theorem strContains_iff (s pat : String) : strContains s pat = true ↔ pat.data <:+: s.data :=
  containsSub_iff pat.data s.data

theorem strContains_append_left (a b pat : String) (h : strContains a pat = true) :
    strContains (a ++ b) pat = true := by
  rw [strContains_iff] at h ⊢
  rw [String.data_append]
  exact h.trans (List.prefix_append a.data b.data).isInfix

theorem strContains_append_right (a b pat : String) (h : strContains b pat = true) :
    strContains (a ++ b) pat = true := by
  rw [strContains_iff] at h ⊢
  rw [String.data_append]
  exact h.trans (List.suffix_append a.data b.data).isInfix

theorem infix_dropWhile_head (pat : List Char) (c0 : Char) (p1 : List Char)
    (hpat : pat = c0 :: p1) (hc0 : isSpaceChar c0 = false) :
    ∀ l : List Char, pat <:+: l → pat <:+: l.dropWhile isSpaceChar := by
  intro l
  induction l with
  | nil =>
    intro h
    rw [List.infix_nil] at h
    rw [hpat] at h
    exact absurd h (by simp)
  | cons a l ih =>
    intro h
    by_cases ha : isSpaceChar a = true
    · rw [List.dropWhile_cons, if_pos ha]
      apply ih
      rw [List.infix_cons_iff] at h
      rcases h with hpfx | hinf
      · rw [hpat] at hpfx
        rw [List.cons_prefix_cons] at hpfx
        rw [← hpfx.1] at ha
        rw [hc0] at ha
        exact absurd ha (by simp)
      · exact hinf
    · rw [List.dropWhile_cons, if_neg ha]
      exact h

theorem strContains_trimSpace (s pat : String) (c0 cL : Char) (p1 p2 : List Char)
    (h1 : pat.data = c0 :: p1) (h2 : pat.data.reverse = cL :: p2)
    (hc0 : isSpaceChar c0 = false) (hcL : isSpaceChar cL = false)
    (h : strContains s pat = true) : strContains (trimSpace s) pat = true := by
  rw [strContains_iff] at h ⊢
  have hA : pat.data <:+: s.data.dropWhile isSpaceChar :=
    infix_dropWhile_head pat.data c0 p1 h1 hc0 s.data h
  have hB : pat.data.reverse <:+: (s.data.dropWhile isSpaceChar).reverse := hA.reverse
  have hC : pat.data.reverse <:+:
      ((s.data.dropWhile isSpaceChar).reverse).dropWhile isSpaceChar :=
    infix_dropWhile_head pat.data.reverse cL p2 h2 hcL _ hB
  have hD := hC.reverse
  rw [List.reverse_reverse] at hD
  exact hD

theorem admitFold (cs : List Container) (b : Bool) (m : String) :
    cs.foldl admitContainerStep (b, m) =
      (b && !(cs.any (fun c => strContains c.name "webhook-disallow")),
       m ++ joinAll ((cs.filter (fun c => strContains c.name "webhook-disallow")).map
          (fun _ => "the pod contains unwanted container name; "))) := by
  induction cs generalizing b m with
  | nil => simp [joinAll, strAppend_empty]
  | cons c cs ih =>
    rw [List.foldl_cons]
    by_cases hc : strContains c.name "webhook-disallow" = true
    · rw [show admitContainerStep (b, m) c =
          (false, m ++ "the pod contains unwanted container name; ") from by
        simp [admitContainerStep, hc]]
      rw [ih]
      simp [hc, joinAll, strAppend_assoc]
    · rw [show admitContainerStep (b, m) c = (b, m) from by
        simp [admitContainerStep, hc]]
      rw [ih]
      simp [hc]

/-- C6 counterexample: a pod labeled `webhook-e2e-test=wait-forever` has
neither of the two violations named by the claim (its label is not
`webhook-disallow` and no container name contains `webhook-disallow`), yet
`admitPods` does not return `allowed = true`: it blocks forever on the
channel receive. -/
theorem admitPods_wait_forever_blocks :
    lookupStr waitForeverPod.labels "webhook-e2e-test" = some "wait-forever" ∧
    waitForeverPod.containers.all (fun c => !(strContains c.name "webhook-disallow")) = true ∧
    admitPods waitForeverReview = .blocksForever :=
  ⟨rfl, by decide, rfl⟩

/-- A closed-form description of `admitPods` on a well-formed pod request. -/
theorem admitPods_characterized (ar : AdmissionReview) (pod : Pod)
    (hres : ar.request.resource = podResource)
    (hobj : ar.request.object = .podObj pod) :
    admitPods ar =
      if lookupStr pod.labels "webhook-e2e-test" = some "wait-forever" then .blocksForever
      else if (!(lookupStr pod.labels "webhook-e2e-test" = some "webhook-disallow" : Bool)) &&
              !(pod.containers.any fun c => strContains c.name "webhook-disallow") then
        .ret (some { allowed := true })
      else
        .ret (some { allowed := false,
                     result := some { message := trimSpace (admitMsg pod) } }) := by
  unfold admitPods admitMsg
  rw [if_neg (by simp [hres]), hobj]
  simp only [decodePod]
  rcases hl : lookupStr pod.labels "webhook-e2e-test" with _ | v
  · simp only [admitFold, reduceCtorEq, if_false, Bool.not_false, Bool.true_and, reduceIte,
      strEmpty_append]
    by_cases hany : (pod.containers.any fun c => strContains c.name "webhook-disallow") = true
    · simp [hany, strEmpty_append]
    · simp [hany, strEmpty_append]
  · by_cases hw : v = "wait-forever"
    · subst hw
      simp
    · by_cases hd : v = "webhook-disallow"
      · subst hd
        simp only [String.reduceEq, reduceIte, admitFold, Bool.false_and, Option.some.injEq,
          Bool.not_true, Bool.false_eq_true, Bool.and_self]
        by_cases hany : (pod.containers.any fun c => strContains c.name "webhook-disallow") = true
        · simp [hany]
        · simp [hany]
      · have h1 : (v = "wait-forever") = False := by simp [hw]
        have h2 : (v = "webhook-disallow") = False := by simp [hd]
        simp only [h1, h2, decide_False, reduceIte, admitFold, Bool.true_and,
          Option.some.injEq, strEmpty_append]
        by_cases hany : (pod.containers.any fun c => strContains c.name "webhook-disallow") = true
        · simp [hany, hd, strEmpty_append]
        · simp [hany, hd, strEmpty_append]

theorem contains_containerMsg (pod : Pod)
    (hany : pod.containers.any (fun c => strContains c.name "webhook-disallow") = true) :
    strContains (joinAll ((pod.containers.filter
        (fun c => strContains c.name "webhook-disallow")).map
      (fun _ => "the pod contains unwanted container name; "))) "unwanted container name" = true := by
  rcases hfil : pod.containers.filter (fun c => strContains c.name "webhook-disallow") with _ | ⟨c, cs⟩
  · rw [List.any_eq_true] at hany
    obtain ⟨c, hc, hcc⟩ := hany
    exact absurd hcc (List.filter_eq_nil_iff.mp hfil c hc)
  · rw [hfil, List.map_cons]
    show strContains ("the pod contains unwanted container name; " ++ _) _ = true
    exact strContains_append_left _ _ _ (by decide)

/-- C6 amended: for a well-formed pod request, `admitPods` (i) denies with a
message containing "unwanted label" when the pod is labeled
`webhook-e2e-test=webhook-disallow`; (ii) denies with a message containing
"unwanted container name" when some container name contains
`webhook-disallow` (label not the `wait-forever` test hook); (iii) puts both
fragments in one message when both violations hold; (iv) allows when neither
violation holds -- except that (v) a pod labeled
`webhook-e2e-test=wait-forever` makes the call block forever instead of
returning `allowed = true`. -/
theorem admitPods_decisions_amended :
    ∀ (ar : AdmissionReview) (pod : Pod),
    ar.request.resource = podResource →
    ar.request.object = .podObj pod →
    ((lookupStr pod.labels "webhook-e2e-test" = some "webhook-disallow" →
      ∃ r, admitPods ar = .ret (some r) ∧ r.allowed = false ∧
        strContains (respMsg r) "unwanted label" = true) ∧
     (lookupStr pod.labels "webhook-e2e-test" ≠ some "webhook-disallow" →
      lookupStr pod.labels "webhook-e2e-test" ≠ some "wait-forever" →
      pod.containers.any (fun c => strContains c.name "webhook-disallow") = true →
      ∃ r, admitPods ar = .ret (some r) ∧ r.allowed = false ∧
        strContains (respMsg r) "unwanted container name" = true) ∧
     (lookupStr pod.labels "webhook-e2e-test" = some "webhook-disallow" →
      pod.containers.any (fun c => strContains c.name "webhook-disallow") = true →
      ∃ r, admitPods ar = .ret (some r) ∧ r.allowed = false ∧
        strContains (respMsg r) "unwanted label" = true ∧
        strContains (respMsg r) "unwanted container name" = true) ∧
     (lookupStr pod.labels "webhook-e2e-test" ≠ some "webhook-disallow" →
      lookupStr pod.labels "webhook-e2e-test" ≠ some "wait-forever" →
      pod.containers.any (fun c => strContains c.name "webhook-disallow") = false →
      admitPods ar = .ret (some { allowed := true })) ∧
     (lookupStr pod.labels "webhook-e2e-test" = some "wait-forever" →
      admitPods ar = .blocksForever)) := by
  intro ar pod hres hobj
  rw [admitPods_characterized ar pod hres hobj]
  refine ⟨?_, ?_, ?_, ?_, ?_⟩
  · intro hlv
    rw [if_neg (by simp [hlv]), if_neg (by simp [hlv])]
    refine ⟨_, rfl, rfl, ?_⟩
    show strContains (trimSpace (admitMsg pod)) "unwanted label" = true
    refine strContains_trimSpace _ _ 'u' 'l' _ _ rfl rfl (by decide) (by decide) ?_
    unfold admitMsg
    rw [if_pos hlv]
    exact strContains_append_left _ _ _ (by decide)
  · intro hlv hwf hany
    rw [if_neg hwf, if_neg (by simp [hlv, hany])]
    refine ⟨_, rfl, rfl, ?_⟩
    show strContains (trimSpace (admitMsg pod)) "unwanted container name" = true
    refine strContains_trimSpace _ _ 'u' 'e' _ _ rfl rfl (by decide) (by decide) ?_
    unfold admitMsg
    exact strContains_append_right _ _ _ (contains_containerMsg pod hany)
  · intro hlv hany
    rw [if_neg (by simp [hlv]), if_neg (by simp [hlv])]
    refine ⟨_, rfl, rfl, ?_, ?_⟩
    · show strContains (trimSpace (admitMsg pod)) "unwanted label" = true
      refine strContains_trimSpace _ _ 'u' 'l' _ _ rfl rfl (by decide) (by decide) ?_
      unfold admitMsg
      rw [if_pos hlv]
      exact strContains_append_left _ _ _ (by decide)
    · show strContains (trimSpace (admitMsg pod)) "unwanted container name" = true
      refine strContains_trimSpace _ _ 'u' 'e' _ _ rfl rfl (by decide) (by decide) ?_
      unfold admitMsg
      exact strContains_append_right _ _ _ (contains_containerMsg pod hany)
  · intro hlv hwf hnone
    rw [if_neg hwf, if_pos (by simp [hlv, hnone])]
  · intro hlv
    rw [if_pos hlv]

theorem admitPods_decisions_amended_witness :
    (∃ r, admitPods (cleanReviewOf disallowLabelPod) = .ret (some r) ∧ r.allowed = false ∧
      strContains (respMsg r) "unwanted label" = true) ∧
    (∃ r, admitPods (cleanReviewOf disallowContPod) = .ret (some r) ∧ r.allowed = false ∧
      strContains (respMsg r) "unwanted container name" = true) ∧
    (∃ r, admitPods (cleanReviewOf disallowBothPod) = .ret (some r) ∧ r.allowed = false ∧
      strContains (respMsg r) "unwanted label" = true ∧
      strContains (respMsg r) "unwanted container name" = true) ∧
    admitPods (cleanReviewOf noAnnotationPod) = .ret (some { allowed := true }) ∧
    admitPods waitForeverReview = .blocksForever :=
  ⟨(admitPods_decisions_amended (cleanReviewOf disallowLabelPod) disallowLabelPod rfl rfl).1 rfl,
   (admitPods_decisions_amended (cleanReviewOf disallowContPod) disallowContPod rfl rfl).2.1
     (by decide) (by decide) (by decide),
   (admitPods_decisions_amended (cleanReviewOf disallowBothPod) disallowBothPod rfl rfl).2.2.1
     rfl (by decide),
   (admitPods_decisions_amended (cleanReviewOf noAnnotationPod) noAnnotationPod rfl rfl).2.2.2.1
     (by decide) (by decide) (by decide),
   (admitPods_decisions_amended waitForeverReview waitForeverPod rfl rfl).2.2.2.2 rfl⟩

/-- C2: on a pod with exactly one matched secrets annotation key `k` and two
containers, `mutatePods` allows with a patch whose bytes parse into exactly
six add operations: one init container named `secrets-init-container-0` whose
`SECRET_ARN` env field reference points at the annotation key `k`; one
added volume named `secret-vol`; exactly two volumeMounts-append add
operations, at container indices 0 and 1, each mounting the same per-request
mount path `/tmp/<mountLocation>`; plus the two `SEC_LOC` env operations. -/
theorem mutatePods_single_annotation_two_containers :
    ∀ (ar : AdmissionReview) (pod : Pod) (k img mnt : String),
    ar.request.resource = podResource →
    ar.request.object = .podObj pod →
    secretAnnKeys pod = [k] →
    hasContainer pod.initContainers "secrets-init-container" = false →
    pod.containers.length = 2 →
    jsonSafe img = true → jsonSafe mnt = true → jsonSafe k = true →
    mutatePods ar mnt img =
      .ret (some { allowed := true, patch := some (fullPatchString img [k] 2 mnt),
                   patchType := some "JSONPatch" }) ∧
    jsonParse (fullPatchString img [k] 2 mnt) = some (.jarr
      [initOpAst [entryAst img 0 k], volOpAst,
       vmOpAst 0 mnt, vmOpAst 1 mnt, envOpAst 0 mnt, envOpAst 1 mnt]) ∧
    entryNameOf (entryAst img 0 k) = some (.jstr "secrets-init-container-0") ∧
    entryFieldPathOf (entryAst img 0 k) = some ("metadata.annotations[\x27" ++ k ++ "\x27]") ∧
    pathOf volOpAst = some "/spec/volumes/-" ∧
    volNameOf volOpAst = some "secret-vol" ∧
    List.countP isVmAddOp
      [initOpAst [entryAst img 0 k], volOpAst,
       vmOpAst 0 mnt, vmOpAst 1 mnt, envOpAst 0 mnt, envOpAst 1 mnt] = 2 ∧
    pathOf (vmOpAst 0 mnt) = some "/spec/containers/0/volumeMounts/-" ∧
    pathOf (vmOpAst 1 mnt) = some "/spec/containers/1/volumeMounts/-" ∧
    mountPathOf (vmOpAst 0 mnt) = some ("/tmp/" ++ mnt) ∧
    mountPathOf (vmOpAst 1 mnt) = some ("/tmp/" ++ mnt) := by
  intro ar pod k img mnt hres hobj hkeys hinit hn him hm hka
  have hsp : mutatePodsShouldPatch pod = true := by
    unfold mutatePodsShouldPatch
    have hfound : pod.annotations.any (fun kv => isSecretAnnKey kv.1) = true := by
      by_contra hf
      have : secretAnnKeys pod = [] := by
        rw [secretAnnKeys, List.filter_eq_nil_iff]
        intro a ha
        intro hsec
        apply hf
        rw [List.any_eq_true]
        obtain ⟨kv, hkv, hkv2⟩ := List.mem_map.mp ha
        exact ⟨kv, hkv, by rw [hkv2]; exact hsec⟩
      rw [this] at hkeys
      exact absurd hkeys (by simp)
    simp [hfound, hinit]
  refine ⟨?_, ?_, rfl, rfl, rfl, rfl, rfl, rfl, rfl, rfl, rfl⟩
  · have := applyPodPatch_patches ar pod mutatePodsShouldPatch "" mnt img hres hobj hsp
      (by rw [hkeys]; simp)
    rw [hkeys, hn] at this
    exact this
  · exact parse_fullPatch img mnt [k] 2 him hm
      (by intro k' hk'; rw [List.mem_singleton] at hk'; rw [hk']; exact hka)
      (by simp) (by simp)

theorem mutatePods_single_annotation_two_containers_witness :
    secretAnnKeys c2Pod = [c2Key] ∧
    hasContainer c2Pod.initContainers "secrets-init-container" = false ∧
    c2Pod.containers.length = 2 ∧
    jsonSafe "init-img" = true ∧ jsonSafe "11112222-3333" = true ∧ jsonSafe c2Key = true ∧
    (mutatePods c2Review "11112222-3333" "init-img" =
      .ret (some { allowed := true,
                   patch := some (fullPatchString "init-img" [c2Key] 2 "11112222-3333"),
                   patchType := some "JSONPatch" }) ∧
     jsonParse (fullPatchString "init-img" [c2Key] 2 "11112222-3333") = some (.jarr
       [initOpAst [entryAst "init-img" 0 c2Key], volOpAst,
        vmOpAst 0 "11112222-3333", vmOpAst 1 "11112222-3333",
        envOpAst 0 "11112222-3333", envOpAst 1 "11112222-3333"]) ∧
     entryNameOf (entryAst "init-img" 0 c2Key) = some (.jstr "secrets-init-container-0") ∧
     entryFieldPathOf (entryAst "init-img" 0 c2Key) =
       some ("metadata.annotations[\x27" ++ c2Key ++ "\x27]") ∧
     pathOf volOpAst = some "/spec/volumes/-" ∧
     volNameOf volOpAst = some "secret-vol" ∧
     List.countP isVmAddOp
       [initOpAst [entryAst "init-img" 0 c2Key], volOpAst,
        vmOpAst 0 "11112222-3333", vmOpAst 1 "11112222-3333",
        envOpAst 0 "11112222-3333", envOpAst 1 "11112222-3333"] = 2 ∧
     pathOf (vmOpAst 0 "11112222-3333") = some "/spec/containers/0/volumeMounts/-" ∧
     pathOf (vmOpAst 1 "11112222-3333") = some "/spec/containers/1/volumeMounts/-" ∧
     mountPathOf (vmOpAst 0 "11112222-3333") = some ("/tmp/" ++ "11112222-3333") ∧
     mountPathOf (vmOpAst 1 "11112222-3333") = some ("/tmp/" ++ "11112222-3333")) :=
  ⟨by decide, rfl, rfl, by decide, by decide, by decide,
   mutatePods_single_annotation_two_containers c2Review c2Pod c2Key "init-img" "11112222-3333"
     rfl rfl (by decide) rfl rfl (by decide) (by decide) (by decide)⟩

/-- C5: for every non-degenerate mutation (the pod has at least one matched
secrets annotation -- this is what `mutatePodsShouldPatch` requires -- and at
least one container) with JSON-safe annotation keys, image and mount token,
the patch bytes returned by `mutatePods` parse as a syntactically valid JSON
array (strict RFC 8259 grammar: no dangling separators, balanced brackets),
whose elements are all `add` patch operations. -/
theorem mutatePods_patch_parses_as_json_array :
    ∀ (ar : AdmissionReview) (pod : Pod) (mnt img : String),
    ar.request.resource = podResource →
    ar.request.object = .podObj pod →
    mutatePodsShouldPatch pod = true →
    pod.containers ≠ [] →
    jsonSafe img = true → jsonSafe mnt = true →
    (∀ k ∈ secretAnnKeys pod, jsonSafe k = true) →
    ∃ (p : String) (ops : List Json),
      mutatePods ar mnt img =
        .ret (some { allowed := true, patch := some p, patchType := some "JSONPatch" }) ∧
      jsonParse p = some (.jarr ops) ∧
      ops ≠ [] ∧
      ∀ o ∈ ops, opOf o = some "add" := by
  intro ar pod mnt img hres hobj hsp hcont him hm hk
  have hkeys : secretAnnKeys pod ≠ [] := found_keys_ne pod (shouldPatch_found pod hsp)
  have hn : pod.containers.length ≠ 0 := fun h => hcont (List.length_eq_zero.mp h)
  refine ⟨fullPatchString img (secretAnnKeys pod) pod.containers.length mnt,
    initOpAst (entryAsts img (secretAnnKeys pod) 0) :: volOpAst ::
      ((List.range pod.containers.length).map (fun i => vmOpAst i mnt) ++
       (List.range pod.containers.length).map (fun i => envOpAst i mnt)),
    ?_, ?_, by simp, ?_⟩
  · exact applyPodPatch_patches ar pod mutatePodsShouldPatch "" mnt img hres hobj hsp hkeys
  · exact parse_fullPatch img mnt (secretAnnKeys pod) pod.containers.length him hm hk hkeys hn
  · intro o ho
    rcases List.mem_cons.mp ho with rfl | ho
    · rfl
    rcases List.mem_cons.mp ho with rfl | ho
    · rfl
    rcases List.mem_append.mp ho with hvm | henv
    · obtain ⟨i, _, rfl⟩ := List.mem_map.mp hvm
      rfl
    · obtain ⟨i, _, rfl⟩ := List.mem_map.mp henv
      rfl

theorem mutatePods_patch_parses_as_json_array_witness :
    (c2Review.request.resource = podResource ∧
     mutatePodsShouldPatch c2Pod = true ∧
     c2Pod.containers ≠ [] ∧
     jsonSafe "init-img" = true ∧ jsonSafe "11112222-3333" = true ∧
     (∀ k ∈ secretAnnKeys c2Pod, jsonSafe k = true)) ∧
    (∃ (p : String) (ops : List Json),
      mutatePods c2Review "11112222-3333" "init-img" =
        .ret (some { allowed := true, patch := some p, patchType := some "JSONPatch" }) ∧
      jsonParse p = some (.jarr ops) ∧
      ops ≠ [] ∧
      ∀ o ∈ ops, opOf o = some "add") :=
  ⟨⟨rfl, by decide, by decide, by decide, by decide, by decide⟩,
   mutatePods_patch_parses_as_json_array c2Review c2Pod "11112222-3333" "init-img"
     rfl rfl (by decide) (by decide) (by decide) (by decide) (by decide)⟩
